import Mathlib

/-!
Verification of the in-memory editing core of the hx hex editor
(src/main.c) against its design specification.

Modelling conventions.  C int values are modelled as Int.  The byte values
held in the contents buffer are modelled as Nat values below 256, which is
the bit pattern of the stored C char object (the program itself views the
bytes this way when it prints them after an unsigned char cast).  The C
operators / and % on int truncate toward zero, so they are modelled by
Int.tdiv and Int.tmod.  Status-line text is produced by vsnprintf and is
purely presentational; the model keeps the exact severity together with a
tag naming the format string.  External effects (file and terminal I/O,
process exit) are out of scope of the core and are modelled as identity on
the editor state.  Reads of the input byte stream are modelled by a list of
available bytes: an empty list stands for read returning no byte within the
timeout.  Out-of-range buffer accesses are undefined behaviour in C; reads
are modelled as 0 and writes as a no-op, and no theorem below depends on
that choice.
-/

/-- The enum editor_mode of src/main.c. -/
inductive editor_mode where
  | MODE_NORMAL
  | MODE_INSERT
  | MODE_REPLACE
  | MODE_COMMAND
deriving DecidableEq

/-- The enum status_severity of src/main.c. -/
inductive severity where
  | STATUS_INFO
  | STATUS_WARNING
  | STATUS_ERROR
deriving DecidableEq

/-- Tags naming the vsnprintf format strings passed to editor_statusmessage;
the formatted text itself is presentational and not modelled. -/
inductive status_msg where
  | msg_none
  | msg_insert_mode
  | msg_replace_mode
  | msg_nothing_to_delete
  | msg_not_valid_hex
  | msg_replaced_byte
  | msg_bytes_written
deriving DecidableEq

open editor_mode severity status_msg

/-- The struct editor of src/main.c, restricted to the fields the editing
core reads and writes (the filename string is opaque to the core). -/
structure editor where
  octets_per_line : Int
  grouping : Int
  hex_line_width : Int
  line : Int
  cursor_x : Int
  cursor_y : Int
  screen_rows : Int
  screen_cols : Int
  mode : editor_mode
  dirty : Bool
  contents : List Nat
  content_length : Int
  status_severity : severity
  status_message : status_msg

/-- Key code constants from enum key_codes of src/main.c. -/
def KEY_NULL : Int := 0

def KEY_CTRL_Q : Int := 0x11

def KEY_CTRL_S : Int := 0x13

def KEY_ESC : Int := 0x1b

def KEY_UP : Int := 1000

def KEY_DOWN : Int := 1001

def KEY_RIGHT : Int := 1002

def KEY_LEFT : Int := 1003

def KEY_HOME : Int := 1004

def KEY_END : Int := 1005

def KEY_PAGEUP : Int := 1006

def KEY_PAGEDOWN : Int := 1007

/-- The implicit int-to-char conversion C applies at call sites such as
ishex(c): keep the low byte, read as a signed 8-bit value. -/
def char_of_int (c : Int) : Int :=
  let m := c.emod 256
  if m ≥ 128 then m - 256 else m

/-- ishex from src/main.c (the parameter is a C char). -/
def ishex (c : Int) : Bool :=
  if (48 ≤ c ∧ c ≤ 57) ∨ (65 ≤ c ∧ c ≤ 70) ∨ (97 ≤ c ∧ c ≤ 102) then true else false

/-- One iteration of the loop body of hex2bin from src/main.c: the value
given to n for the character c. -/
def hex2bin_digit (c : Int) : Int :=
  if 48 ≤ c ∧ c ≤ 57 then c - 48
  else if 97 ≤ c ∧ c ≤ 102 then 10 + c - 97
  else if 65 ≤ c ∧ c ≤ 70 then 10 + c - 65
  else 0

/-- hex2bin from src/main.c, its two loop iterations unrolled over the two
characters of the argument string: ret = n1 + (n0 + 0 * 16) * 16. -/
def hex2bin (c0 c1 : Int) : Int :=
  hex2bin_digit c1 + hex2bin_digit c0 * 16

/-- Modelled from the wording of the spec and of the claims: the standard
value of a hexadecimal digit character, case-insensitive.  Used only to
state what hex2bin computes; the source function is hex2bin above. -/
def hexDigitValue (c : Int) : Int :=
  if 48 ≤ c ∧ c ≤ 57 then c - 48
  else if 97 ≤ c ∧ c ≤ 102 then c - 97 + 10
  else if 65 ≤ c ∧ c ≤ 70 then c - 65 + 10
  else 0

/-- Reading the byte e.contents[offset]; an out-of-range read is undefined
behaviour in C and is modelled as 0. -/
def byte_at (contents : List Nat) (offset : Int) : Int :=
  if offset < 0 then 0 else (contents.getD offset.toNat 0 : Nat)

/-- Writing the C char value v to e.contents[offset]: the stored bit
pattern is v modulo 256.  An out-of-range write is undefined behaviour in C
and is modelled as a no-op. -/
def write_byte (contents : List Nat) (offset : Int) (v : Int) : List Nat :=
  if offset < 0 then contents else contents.set offset.toNat (v.emod 256).toNat

/-- editor_statusmessage from src/main.c: stores the severity and the
message (here: the tag of its format string). -/
def editor_statusmessage (e : editor) (sev : severity) (msg : status_msg) : editor :=
  { e with status_severity := sev, status_message := msg }

/-- The unclamped cursor offset (cursor_y - 1 + line) * octets_per_line +
(cursor_x - 1) computed by editor_offset_at_cursor before its two clamping
checks. -/
def raw_offset (e : editor) : Int :=
  (e.cursor_y - 1 + e.line) * e.octets_per_line + (e.cursor_x - 1)

/-- editor_offset_at_cursor from src/main.c; the local offset variable is
the raw_offset value above. -/
def editor_offset_at_cursor (e : editor) : Int :=
  let offset := raw_offset e
  if offset ≤ 0 then 0
  else if offset ≥ e.content_length then e.content_length - 1
  else offset

/-- editor_cursor_at_offset from src/main.c; the two out parameters are
returned as the pair (x, y).  C division and remainder on int truncate
toward zero, hence Int.tdiv and Int.tmod. -/
def editor_cursor_at_offset (e : editor) (offset : Int) : Int × Int :=
  (Int.tmod offset e.octets_per_line + 1,
   Int.tdiv offset e.octets_per_line - e.line + 1)

/-- editor_scroll from src/main.c. -/
def editor_scroll (e : editor) (units : Int) : editor :=
  let e1 : editor := { e with line := e.line + units }
  let upper_limit := Int.tdiv e1.content_length e1.octets_per_line - (e1.screen_rows - 2)
  let e2 : editor := if e1.line ≥ upper_limit then { e1 with line := upper_limit } else e1
  if e2.line ≤ 0 then { e2 with line := 0 } else e2

/-- The switch statement at the top of editor_move_cursor (src/main.c lines
377 to 382): apply the movement to the cursor fields. -/
def emc_step (e : editor) (dir : Int) (amount : Int) : editor :=
  if dir = KEY_UP then { e with cursor_y := e.cursor_y - amount }
  else if dir = KEY_DOWN then { e with cursor_y := e.cursor_y + amount }
  else if dir = KEY_LEFT then { e with cursor_x := e.cursor_x - amount }
  else if dir = KEY_RIGHT then { e with cursor_x := e.cursor_x + amount }
  else e

/-- The x-axis boundary handling of editor_move_cursor (lines 392 to 415):
wrap to the previous or next row when the cursor left the row bounds. -/
def emc_boundary (e : editor) : editor :=
  if e.cursor_x < 1 then
    if e.cursor_y ≥ 1 then
      { e with cursor_y := e.cursor_y - 1, cursor_x := e.octets_per_line }
    else e
  else if e.cursor_x > e.octets_per_line then
    { e with cursor_y := e.cursor_y + 1, cursor_x := 1 }
  else e

/-- The top-of-file clamp of editor_move_cursor (lines 424 to 426). -/
def emc_topclamp (e : editor) : editor :=
  if e.cursor_y ≤ 1 ∧ e.line ≤ 0 then { e with cursor_y := 1 } else e

/-- The y-axis handling of editor_move_cursor (lines 429 to 435): clamp the
cursor row to the screen and scroll instead. -/
def emc_yscroll (e : editor) : editor :=
  if e.cursor_y > e.screen_rows - 1 then
    editor_scroll { e with cursor_y := e.screen_rows - 1 } 1
  else if e.cursor_y < 1 ∧ e.line > 0 then
    editor_scroll { e with cursor_y := 1 } (-1)
  else e

/-- The end-of-file check of editor_move_cursor (lines 439 to 443): when the
clamped offset is at least content_length - 1, reposition the cursor from
the offset. -/
def emc_eofclamp (e : editor) : editor :=
  let offset := editor_offset_at_cursor e
  if offset ≥ e.content_length - 1 then
    let p := editor_cursor_at_offset e offset
    { e with cursor_x := p.1, cursor_y := p.2 }
  else e

/-- editor_move_cursor from src/main.c, as the composition of its textual
stages: the movement switch, the start-of-file early return (lines 385 to
389), the x boundary wrap, the top-of-file clamp, the y clamp with
scrolling, and the end-of-file check. -/
def editor_move_cursor (e : editor) (dir : Int) (amount : Int) : editor :=
  let e1 := emc_step e dir amount
  if e1.cursor_x ≤ 1 ∧ e1.cursor_y ≤ 1 ∧ e1.line ≤ 0 then
    { e1 with cursor_x := 1, cursor_y := 1 }
  else
    emc_eofclamp (emc_yscroll (emc_topclamp (emc_boundary e1)))

/-- editor_delete_char_at_cursor from src/main.c: the memmove plus the
shrinking realloc keep the first offset bytes and the bytes after position
offset, and content_length is decremented; on an empty buffer only a
warning status is set. -/
def editor_delete_char_at_cursor (e : editor) : editor :=
  let offset := editor_offset_at_cursor e
  let old_length := e.content_length
  if e.content_length ≤ 0 then
    editor_statusmessage e STATUS_WARNING msg_nothing_to_delete
  else
    let e1 : editor := { e with
      contents := e.contents.take offset.toNat ++ e.contents.drop (offset.toNat + 1),
      content_length := e.content_length - 1 }
    if offset ≥ old_length - 1 then editor_move_cursor e1 KEY_LEFT 1 else e1

/-- editor_increment_byte from src/main.c: e.contents[offset] += amount on
a C char object wraps modulo 256 on the stored bit pattern. -/
def editor_increment_byte (e : editor) (amount : Int) : editor :=
  let offset := editor_offset_at_cursor e
  { e with contents := write_byte e.contents offset (byte_at e.contents offset + amount) }

/-- editor_insert from src/main.c: realloc grows the buffer by one cell
(the fresh cell is modelled as 0), the byte x is stored at index
content_length, and content_length is incremented.  The function takes no
offset argument and shifts nothing. -/
def editor_insert (e : editor) (x : Int) : editor :=
  { e with
    contents := write_byte (e.contents ++ [0]) e.content_length x,
    content_length := e.content_length + 1 }

/-- editor_replace_byte from src/main.c. -/
def editor_replace_byte (e : editor) (x : Int) : editor :=
  let offset := editor_offset_at_cursor e
  let e1 : editor := { e with contents := write_byte e.contents offset x }
  editor_move_cursor e1 KEY_RIGHT 1

/-- editor_setmode from src/main.c. -/
def editor_setmode (e : editor) (mode : editor_mode) : editor :=
  let e1 : editor := { e with mode := mode }
  match mode with
  | MODE_NORMAL => editor_statusmessage e1 STATUS_INFO msg_none
  | MODE_INSERT => editor_statusmessage e1 STATUS_INFO msg_insert_mode
  | MODE_REPLACE => editor_statusmessage e1 STATUS_INFO msg_replace_mode
  | MODE_COMMAND => e1

/-- editor_writefile from src/main.c: the file output itself is an external
effect; on the modelled success path the function only updates the status
line. -/
def editor_writefile (e : editor) : editor :=
  editor_statusmessage e STATUS_INFO msg_bytes_written

/-- The follow-up read_key() calls inside editor_process_keypress fetch the
next logical key event; on the event-stream model this is the head of the
remaining events, and -1 (the interrupted-read result) when none is left. -/
def next_key (keys : List Int) : Int :=
  match keys with
  | [] => -1
  | k :: _ => k

/-- The key events the mode-independent switch at the top of
editor_process_keypress handles (src/main.c lines 946 to 960), together
with the -1 interrupted-read result. -/
def is_global_key (c : Int) : Bool :=
  if c = -1 ∨ c = KEY_ESC ∨ c = KEY_CTRL_Q ∨ c = KEY_CTRL_S ∨ c = KEY_UP ∨ c = KEY_DOWN ∨
     c = KEY_RIGHT ∨ c = KEY_LEFT ∨ c = KEY_HOME ∨ c = KEY_END ∨ c = KEY_PAGEUP ∨
     c = KEY_PAGEDOWN
  then true else false

/-- editor_process_keypress from src/main.c, over the stream of decoded key
events (the values read_key returns): the head is the c read at the top of
the C function, the tail feeds the additional read_key() calls (the g
prefix and replace mode).  exit(0) on Ctrl-Q ends the process and is
modelled as the unchanged state; ishex and the snprintf %c conversions take
C char arguments, hence char_of_int. -/
def editor_process_keypress (e : editor) (keys : List Int) : editor :=
  match keys with
  | [] => e
  | c :: rest =>
    if c = -1 then e
    else if c = KEY_ESC then editor_setmode e MODE_NORMAL
    else if c = KEY_CTRL_Q then e
    else if c = KEY_CTRL_S then editor_writefile e
    else if c = KEY_UP ∨ c = KEY_DOWN ∨ c = KEY_RIGHT ∨ c = KEY_LEFT then
      editor_move_cursor e c 1
    else if c = KEY_HOME then { e with cursor_x := 1 }
    else if c = KEY_END then { e with cursor_x := e.octets_per_line }
    else if c = KEY_PAGEUP then editor_scroll e (-e.screen_rows + 2)
    else if c = KEY_PAGEDOWN then editor_scroll e (e.screen_rows - 2)
    else if e.mode = MODE_NORMAL then
      if c = 104 then editor_move_cursor e KEY_LEFT 1
      else if c = 106 then editor_move_cursor e KEY_DOWN 1
      else if c = 107 then editor_move_cursor e KEY_UP 1
      else if c = 108 then editor_move_cursor e KEY_RIGHT 1
      else if c = 120 then editor_delete_char_at_cursor e
      else if c = 105 then editor_setmode e MODE_INSERT
      else if c = 114 then editor_setmode e MODE_REPLACE
      else if c = 98 then editor_move_cursor e KEY_LEFT e.grouping
      else if c = 119 then editor_move_cursor e KEY_RIGHT e.grouping
      else if c = 71 then
        let e1 := editor_scroll e e.content_length
        let p := editor_cursor_at_offset e1 (e1.content_length - 1)
        { e1 with cursor_x := p.1, cursor_y := p.2 }
      else if c = 103 then
        if next_key rest = 103 then
          let e1 : editor := { e with line := 0 }
          let p := editor_cursor_at_offset e1 0
          { e1 with cursor_x := p.1, cursor_y := p.2 }
        else e
      else if c = 93 then editor_increment_byte e 1
      else if c = 91 then editor_increment_byte e (-1)
      else e
    else if e.mode = MODE_INSERT then e
    else if e.mode = MODE_REPLACE then
      if !(ishex (char_of_int c)) then
        editor_statusmessage e STATUS_ERROR msg_not_valid_hex
      else
        let next := next_key rest
        if !(ishex (char_of_int next)) then
          editor_statusmessage e STATUS_ERROR msg_not_valid_hex
        else
          let ashex := hex2bin (char_of_int c) (char_of_int next)
          let e1 := editor_replace_byte e ashex
          editor_statusmessage e1 STATUS_INFO msg_replaced_byte
    else e

/-- Two editor states that agree on everything except the cursor and
scroll fields; cursor movement and scrolling only modify those. -/
def same_frame (a b : editor) : Prop :=
  a.contents = b.contents ∧ a.content_length = b.content_length ∧
  a.mode = b.mode ∧ a.octets_per_line = b.octets_per_line ∧
  a.screen_rows = b.screen_rows ∧ a.screen_cols = b.screen_cols ∧
  a.grouping = b.grouping ∧ a.hex_line_width = b.hex_line_width ∧
  a.dirty = b.dirty ∧ a.status_severity = b.status_severity ∧
  a.status_message = b.status_message

/-- A concrete editor state over the given byte buffer, used to evaluate
the definitions on explicit inputs. -/
def sample_editor (contents : List Nat) (x y line : Int) (m : editor_mode) : editor :=
  { octets_per_line := 16
    grouping := 4
    hex_line_width := 39
    line := line
    cursor_x := x
    cursor_y := y
    screen_rows := 24
    screen_cols := 80
    mode := m
    dirty := false
    contents := contents
    content_length := (contents.length : Int)
    status_severity := STATUS_INFO
    status_message := msg_none }

/-! ## Basic lemmas about the embedded operations -/

theorem same_frame_refl (a : editor) : same_frame a a := by
  unfold same_frame; exact ⟨rfl, rfl, rfl, rfl, rfl, rfl, rfl, rfl, rfl, rfl, rfl⟩

theorem same_frame_trans {a b c : editor} (h1 : same_frame a b) (h2 : same_frame b c) :
    same_frame a c := by
  unfold same_frame at *
  exact ⟨h1.1.trans h2.1, h1.2.1.trans h2.2.1, h1.2.2.1.trans h2.2.2.1,
    h1.2.2.2.1.trans h2.2.2.2.1, h1.2.2.2.2.1.trans h2.2.2.2.2.1,
    h1.2.2.2.2.2.1.trans h2.2.2.2.2.2.1, h1.2.2.2.2.2.2.1.trans h2.2.2.2.2.2.2.1,
    h1.2.2.2.2.2.2.2.1.trans h2.2.2.2.2.2.2.2.1,
    h1.2.2.2.2.2.2.2.2.1.trans h2.2.2.2.2.2.2.2.2.1,
    h1.2.2.2.2.2.2.2.2.2.1.trans h2.2.2.2.2.2.2.2.2.2.1,
    h1.2.2.2.2.2.2.2.2.2.2.trans h2.2.2.2.2.2.2.2.2.2.2⟩

theorem editor_offset_at_cursor_eq_raw (e : editor) (h0 : 0 ≤ raw_offset e)
    (h1 : raw_offset e ≤ e.content_length - 1) :
    editor_offset_at_cursor e = raw_offset e := by
  simp only [editor_offset_at_cursor]
  split_ifs <;> omega

theorem editor_offset_at_cursor_mem (e : editor) (hcl : 1 ≤ e.content_length) :
    0 ≤ editor_offset_at_cursor e ∧ editor_offset_at_cursor e ≤ e.content_length - 1 := by
  simp only [editor_offset_at_cursor]
  split_ifs <;> omega

theorem editor_cursor_at_offset_eq (e : editor) (q r : Int) (hq : 0 ≤ q) (hr : 0 ≤ r)
    (hro : r < e.octets_per_line) :
    editor_cursor_at_offset e (q * e.octets_per_line + r) = (r + 1, q - e.line + 1) := by
  have hopl : 0 < e.octets_per_line := lt_of_le_of_lt hr hro
  have ha : 0 ≤ q * e.octets_per_line + r := by
    have := mul_nonneg hq hopl.le
    omega
  simp only [editor_cursor_at_offset]
  rw [Int.tmod_eq_emod ha hopl.le, Int.tdiv_eq_ediv ha hopl.le]
  have h1 : (q * e.octets_per_line + r) % e.octets_per_line = r := by
    rw [add_comm, Int.add_mul_emod_self]
    exact Int.emod_eq_of_lt hr hro
  have h2 : (q * e.octets_per_line + r) / e.octets_per_line = q := by
    rw [add_comm, Int.add_mul_ediv_right _ _ (ne_of_gt hopl),
      Int.ediv_eq_zero_of_lt hr hro]
    omega
  rw [h1, h2]

theorem editor_scroll_line (e : editor) (u : Int) :
    (editor_scroll e u).line =
      max 0 (min (e.line + u)
        (Int.tdiv e.content_length e.octets_per_line - (e.screen_rows - 2))) := by
  simp only [editor_scroll]
  split_ifs <;> (try simp_all) <;> omega

theorem editor_scroll_frame (e : editor) (u : Int) :
    same_frame (editor_scroll e u) e ∧
    (editor_scroll e u).cursor_x = e.cursor_x ∧
    (editor_scroll e u).cursor_y = e.cursor_y := by
  simp only [editor_scroll, same_frame]
  split_ifs <;> simp_all

theorem ishex_iff (c : Int) :
    ishex c = true ↔ ((48 ≤ c ∧ c ≤ 57) ∨ (65 ≤ c ∧ c ≤ 70) ∨ (97 ≤ c ∧ c ≤ 102)) := by
  unfold ishex
  split_ifs with h <;> simp [h]

theorem char_of_int_small (c : Int) (h0 : 0 ≤ c) (h1 : c < 128) : char_of_int c = c := by
  have hm : c.emod 256 = c := Int.emod_eq_of_lt h0 (by omega)
  simp only [char_of_int, hm]
  rw [if_neg (by omega)]

theorem hex2bin_value (c0 c1 : Int) :
    hex2bin c0 c1 = 16 * hexDigitValue c0 + hexDigitValue c1 ∧
    0 ≤ hex2bin c0 c1 ∧ hex2bin c0 c1 < 256 := by
  unfold hex2bin hex2bin_digit hexDigitValue
  split_ifs <;> omega

theorem list_getD_set_self (l : List Nat) (k : Nat) (v : Nat) (h : k < l.length) :
    (l.set k v).getD k 0 = v := by
  induction l generalizing k with
  | nil => simp at h
  | cons a t ih =>
    cases k with
    | zero => rfl
    | succ n =>
      have hn : n < t.length := by simpa using h
      simpa using ih n hn

theorem list_set_append_length (l : List Nat) (v : Nat) :
    (l ++ [0]).set l.length v = l ++ [v] := by
  induction l with
  | nil => rfl
  | cons a t ih =>
    simp only [List.cons_append, List.length_cons, List.set_cons_succ, ih]

/-! ## Frame lemmas: which fields each operation leaves unchanged -/

theorem emc_step_frame (e : editor) (d a : Int) :
    same_frame (emc_step e d a) e ∧ (emc_step e d a).line = e.line := by
  simp only [emc_step, same_frame]
  split_ifs <;> simp_all

theorem emc_boundary_frame (e : editor) :
    same_frame (emc_boundary e) e ∧ (emc_boundary e).line = e.line := by
  simp only [emc_boundary, same_frame]
  split_ifs <;> simp_all

theorem emc_topclamp_frame (e : editor) :
    same_frame (emc_topclamp e) e ∧ (emc_topclamp e).line = e.line ∧
    (emc_topclamp e).cursor_x = e.cursor_x := by
  simp only [emc_topclamp, same_frame]
  split_ifs <;> simp_all

theorem emc_yscroll_frame (e : editor) :
    same_frame (emc_yscroll e) e ∧ (emc_yscroll e).cursor_x = e.cursor_x := by
  simp only [emc_yscroll]
  split_ifs with h1 h2
  · refine ⟨same_frame_trans (editor_scroll_frame _ _).1 ?_, ?_⟩
    · simp [same_frame]
    · rw [(editor_scroll_frame _ _).2.1]
  · refine ⟨same_frame_trans (editor_scroll_frame _ _).1 ?_, ?_⟩
    · simp [same_frame]
    · rw [(editor_scroll_frame _ _).2.1]
  · exact ⟨same_frame_refl e, rfl⟩

theorem emc_eofclamp_frame (e : editor) :
    same_frame (emc_eofclamp e) e ∧ (emc_eofclamp e).line = e.line := by
  simp only [emc_eofclamp, same_frame]
  split_ifs <;> simp_all

theorem editor_move_cursor_frame (e : editor) (d a : Int) :
    same_frame (editor_move_cursor e d a) e := by
  simp only [editor_move_cursor]
  split_ifs with h1
  · exact same_frame_trans (by simp [same_frame]) (emc_step_frame e d a).1
  · exact same_frame_trans (emc_eofclamp_frame _).1
      (same_frame_trans (emc_yscroll_frame _).1
        (same_frame_trans (emc_topclamp_frame _).1
          (same_frame_trans (emc_boundary_frame _).1 (emc_step_frame e d a).1)))

/-! ## The claims -/

/-- C2 (code bug witness): the spec says editor_offset_at_cursor clamps
into the interval from 0 to content_length - 1 and yields 0 whenever
content_length is 0; the code instead returns content_length - 1 = -1 on an
empty buffer whenever the raw cursor offset is positive (here cursor_x = 2,
cursor_y = 1, line = 0), an out-of-bounds index, contradicting the safety
comment in the source that the result must stay in bounds. -/
theorem offset_at_cursor_empty_buffer_bug :
    editor_offset_at_cursor (sample_editor [] 2 1 0 MODE_NORMAL) = -1 ∧ ((-1 : Int) ≠ 0) :=
  ⟨by decide, by decide⟩

/-- C3 (counterexample): the buffer insert operation of the code takes no
offset and never shifts: inserting byte 2 into the buffer [0, 1] appends,
producing [0, 1, 2] and not the shifted buffer the claim requires for
offset 0. -/
theorem editor_insert_does_not_shift :
    (editor_insert (sample_editor [0, 1] 1 1 0 MODE_NORMAL) 2).contents = [0, 1, 2] ∧
    ([0, 1, 2] : List Nat) ≠ [2, 0, 1] :=
  ⟨by decide, by decide⟩

/-- C3 (amended): editor_insert takes only the byte and always appends it
at offset content_length (the append case of the claim): storage grows by
one cell, all existing bytes are unchanged, the new byte is stored at index
content_length, and content_length increases by exactly one. -/
theorem editor_insert_appends (e : editor) (x : Int)
    (hlen : e.content_length = (e.contents.length : Int))
    (hx0 : 0 ≤ x) (hx1 : x < 256) :
    (editor_insert e x).contents = e.contents ++ [x.toNat] ∧
    (editor_insert e x).content_length = e.content_length + 1 := by
  constructor
  · simp only [editor_insert, write_byte]
    rw [if_neg (by omega)]
    have hmod : x.emod 256 = x := Int.emod_eq_of_lt hx0 hx1
    rw [hmod]
    have htn : e.content_length.toNat = e.contents.length := by omega
    rw [htn, list_set_append_length]
  · rfl

/-- Witness for the amended C3 at a concrete input. -/
theorem editor_insert_appends_witness :
    (editor_insert (sample_editor [5] 1 1 0 MODE_NORMAL) 7).contents = [5, 7] ∧
    (editor_insert (sample_editor [5] 1 1 0 MODE_NORMAL) 7).content_length = 2 := by
  have h := editor_insert_appends (sample_editor [5] 1 1 0 MODE_NORMAL) 7
    (by decide) (by decide) (by decide)
  exact ⟨by rw [h.1]; decide, by rw [h.2]; decide⟩

/-- C6: editor_scroll adds units to line and clamps the result into the
interval from 0 to max 0 (content_length / octets_per_line -
(screen_rows - 2)) under C integer division; in particular with
content_length 100, octets_per_line 16 and screen_rows 24 the resulting
line is never negative and is always 0. -/
theorem editor_scroll_clamp_law :
    (∀ (e : editor) (units : Int),
      (editor_scroll e units).line =
        max 0 (min (e.line + units)
          (max 0 (Int.tdiv e.content_length e.octets_per_line - (e.screen_rows - 2))))) ∧
    (∀ (e : editor) (units : Int),
      e.content_length = 100 → e.octets_per_line = 16 → e.screen_rows = 24 →
      0 ≤ (editor_scroll e units).line ∧ (editor_scroll e units).line = 0) := by
  constructor
  · intro e units
    rw [editor_scroll_line e units]
    omega
  · intro e units h1 h2 h3
    rw [editor_scroll_line e units, h1, h2, h3]
    have h6 : Int.tdiv 100 16 = 6 := by decide
    rw [h6]
    omega

/-- Witness for C6 at a concrete input. -/
theorem editor_scroll_clamp_law_witness :
    0 ≤ (editor_scroll (sample_editor (List.replicate 100 0) 1 1 3 MODE_NORMAL) 7).line ∧
    (editor_scroll (sample_editor (List.replicate 100 0) 1 1 3 MODE_NORMAL) 7).line = 0 :=
  editor_scroll_clamp_law.2 (sample_editor (List.replicate 100 0) 1 1 3 MODE_NORMAL) 7
    (by decide) (by decide) (by decide)

/-- C1: for a cursor state with cursor_x between 1 and octets_per_line,
cursor_y between 1 and screen_rows - 1 and a nonnegative line, whenever the
offset editor_offset_at_cursor computes is not clamped (it already lies
between 0 and content_length - 1), editor_cursor_at_offset applied to that
offset with the same line and octets_per_line reconstructs exactly the
original cursor position. -/
theorem offset_cursor_roundtrip (e : editor)
    (hx1 : 1 ≤ e.cursor_x) (hx2 : e.cursor_x ≤ e.octets_per_line)
    (hy1 : 1 ≤ e.cursor_y) (hy2 : e.cursor_y ≤ e.screen_rows - 1)
    (hline : 0 ≤ e.line)
    (h0 : 0 ≤ raw_offset e) (h1 : raw_offset e ≤ e.content_length - 1) :
    editor_cursor_at_offset e (editor_offset_at_cursor e) = (e.cursor_x, e.cursor_y) := by
  rw [editor_offset_at_cursor_eq_raw e h0 h1]
  have hre : raw_offset e =
      (e.cursor_y - 1 + e.line) * e.octets_per_line + (e.cursor_x - 1) := rfl
  rw [hre, editor_cursor_at_offset_eq e _ _ (by omega) (by omega) (by omega)]
  simp only [Prod.mk.injEq]
  omega

/-- Witness for C1 at a concrete input. -/
theorem offset_cursor_roundtrip_witness :
    editor_cursor_at_offset (sample_editor (List.replicate 40 7) 3 2 0 MODE_NORMAL)
      (editor_offset_at_cursor (sample_editor (List.replicate 40 7) 3 2 0 MODE_NORMAL)) =
      (3, 2) :=
  offset_cursor_roundtrip _ (by decide) (by decide) (by decide) (by decide) (by decide)
    (by decide) (by decide)

/-- C9: incrementing the byte at the cursor offset acts modulo 256 on the
stored byte value for any amount, leaves content_length and the buffer
length unchanged, and in particular a byte of value 0xFF incremented by 1
wraps to 0x00. -/
theorem increment_byte_wrap (e : editor) (amount : Int)
    (hx1 : 1 ≤ e.cursor_x) (hx2 : e.cursor_x ≤ e.octets_per_line)
    (hy1 : 1 ≤ e.cursor_y) (hline : 0 ≤ e.line)
    (hlen : e.content_length = (e.contents.length : Int))
    (hraw : raw_offset e ≤ e.content_length - 1) :
    ((editor_increment_byte e amount).contents.getD (raw_offset e).toNat 0 : Int) =
      ((e.contents.getD (raw_offset e).toNat 0 : Int) + amount).emod 256 ∧
    (editor_increment_byte e amount).content_length = e.content_length ∧
    (editor_increment_byte e amount).contents.length = e.contents.length ∧
    (e.contents.getD (raw_offset e).toNat 0 = 255 → amount = 1 →
      (editor_increment_byte e amount).contents.getD (raw_offset e).toNat 0 = 0) := by
  have hq : 0 ≤ e.cursor_y - 1 + e.line := by omega
  have hr0 : 0 ≤ raw_offset e := by
    have hm := mul_nonneg hq (by omega : (0:Int) ≤ e.octets_per_line)
    unfold raw_offset
    omega
  have hoff : editor_offset_at_cursor e = raw_offset e :=
    editor_offset_at_cursor_eq_raw e hr0 hraw
  have hidx : (raw_offset e).toNat < e.contents.length := by omega
  have hneg : ¬(raw_offset e < 0) := by omega
  have hmain :
      ((editor_increment_byte e amount).contents.getD (raw_offset e).toNat 0 : Int) =
        ((e.contents.getD (raw_offset e).toNat 0 : Int) + amount).emod 256 := by
    simp only [editor_increment_byte, hoff, write_byte, byte_at, if_neg hneg]
    rw [list_getD_set_self _ _ _ hidx]
    exact Int.toNat_of_nonneg (Int.emod_nonneg _ (by omega))
  refine ⟨hmain, rfl, ?_, ?_⟩
  · simp only [editor_increment_byte, hoff, write_byte, byte_at, if_neg hneg,
      List.length_set]
  · intro h255 hamt
    subst hamt
    rw [h255] at hmain
    have hv : (((255 : Nat) : Int) + 1).emod 256 = 0 := by decide
    rw [hv] at hmain
    omega

/-- Witness for C9 at a concrete input: a buffer holding the single byte
0xFF, the cursor on it, incremented by one. -/
theorem increment_byte_wrap_witness :
    (editor_increment_byte (sample_editor [255] 1 1 0 MODE_NORMAL) 1).contents.getD 0 0
      = 0 := by
  have h := increment_byte_wrap (sample_editor [255] 1 1 0 MODE_NORMAL) 1
    (by decide) (by decide) (by decide) (by decide) (by decide) (by decide)
  have h4 := h.2.2.2 (by decide) rfl
  have hz : (raw_offset (sample_editor [255] 1 1 0 MODE_NORMAL)).toNat = 0 := by decide
  rw [hz] at h4
  exact h4

/-! ## Routing lemmas for editor_process_keypress in replace mode -/

theorem is_global_key_false (c : Int) (h : is_global_key c = false) :
    c ≠ -1 ∧ c ≠ KEY_ESC ∧ c ≠ KEY_CTRL_Q ∧ c ≠ KEY_CTRL_S ∧ c ≠ KEY_UP ∧ c ≠ KEY_DOWN ∧
    c ≠ KEY_RIGHT ∧ c ≠ KEY_LEFT ∧ c ≠ KEY_HOME ∧ c ≠ KEY_END ∧ c ≠ KEY_PAGEUP ∧
    c ≠ KEY_PAGEDOWN := by
  have hng : ¬(c = -1 ∨ c = KEY_ESC ∨ c = KEY_CTRL_Q ∨ c = KEY_CTRL_S ∨ c = KEY_UP ∨
      c = KEY_DOWN ∨ c = KEY_RIGHT ∨ c = KEY_LEFT ∨ c = KEY_HOME ∨ c = KEY_END ∨
      c = KEY_PAGEUP ∨ c = KEY_PAGEDOWN) := by
    intro hor
    simp only [is_global_key, if_pos hor] at h
    cases h
  push_neg at hng
  exact hng

theorem emc_step_up (e : editor) (a : Int) :
    emc_step e KEY_UP a = { e with cursor_y := e.cursor_y - a } := by
  simp [emc_step, KEY_UP, KEY_DOWN, KEY_LEFT, KEY_RIGHT]

theorem emc_step_down (e : editor) (a : Int) :
    emc_step e KEY_DOWN a = { e with cursor_y := e.cursor_y + a } := by
  simp [emc_step, KEY_UP, KEY_DOWN, KEY_LEFT, KEY_RIGHT]

theorem emc_step_left (e : editor) (a : Int) :
    emc_step e KEY_LEFT a = { e with cursor_x := e.cursor_x - a } := by
  simp [emc_step, KEY_UP, KEY_DOWN, KEY_LEFT, KEY_RIGHT]

theorem emc_step_right (e : editor) (a : Int) :
    emc_step e KEY_RIGHT a = { e with cursor_x := e.cursor_x + a } := by
  simp [emc_step, KEY_UP, KEY_DOWN, KEY_LEFT, KEY_RIGHT]

theorem emc_topclamp_cursor_y_of_ge (e : editor) (h : 1 ≤ e.cursor_y) :
    (emc_topclamp e).cursor_y = e.cursor_y := by
  simp only [emc_topclamp]
  split_ifs with h1 <;> simp <;> omega

theorem emc_yscroll_id (e : editor) (h1 : e.cursor_y ≤ e.screen_rows - 1)
    (h2 : 1 ≤ e.cursor_y) :
    emc_yscroll e = e := by
  simp only [emc_yscroll]
  rw [if_neg (by omega), if_neg (by omega)]

/-- Moving right by one column strictly inside a row, with at least one
more byte after the next offset: the cursor moves one column right and
nothing else changes. -/
theorem move_right_interior (E : editor)
    (hx1 : 1 ≤ E.cursor_x) (hx2 : E.cursor_x + 1 ≤ E.octets_per_line)
    (hy1 : 1 ≤ E.cursor_y) (hy2 : E.cursor_y ≤ E.screen_rows - 1)
    (hline : 0 ≤ E.line)
    (hnext : raw_offset E + 1 ≤ E.content_length - 1) :
    (editor_move_cursor E KEY_RIGHT 1).cursor_x = E.cursor_x + 1 ∧
    (editor_move_cursor E KEY_RIGHT 1).cursor_y = E.cursor_y ∧
    (editor_move_cursor E KEY_RIGHT 1).line = E.line := by
  have hraw0 : 0 ≤ raw_offset E := by
    have hm := mul_nonneg (by omega : (0:Int) ≤ E.cursor_y - 1 + E.line)
      (by omega : (0:Int) ≤ E.octets_per_line)
    unfold raw_offset
    omega
  simp only [editor_move_cursor, emc_step_right]
  rw [if_neg (by omega)]
  set S : editor := { E with cursor_x := E.cursor_x + 1 } with hS
  have hSx : S.cursor_x = E.cursor_x + 1 := rfl
  have hSy : S.cursor_y = E.cursor_y := rfl
  have hSline : S.line = E.line := rfl
  have hSopl : S.octets_per_line = E.octets_per_line := rfl
  have hSrows : S.screen_rows = E.screen_rows := rfl
  have hScl : S.content_length = E.content_length := rfl
  have hbd : emc_boundary S = S := by
    simp only [emc_boundary]
    rw [if_neg (by omega), if_neg (by omega)]
  rw [hbd]
  set T : editor := emc_topclamp S with hT
  have hTy : T.cursor_y = E.cursor_y := by
    rw [hT, emc_topclamp_cursor_y_of_ge S (by omega)]
  have hTx : T.cursor_x = E.cursor_x + 1 := by
    rw [hT, (emc_topclamp_frame S).2.2]
  have hTline : T.line = E.line := by
    rw [hT, (emc_topclamp_frame S).2.1]
  have hTopl : T.octets_per_line = E.octets_per_line := by
    rw [hT]; exact (emc_topclamp_frame S).1.2.2.2.1
  have hTrows : T.screen_rows = E.screen_rows := by
    rw [hT]; exact (emc_topclamp_frame S).1.2.2.2.2.1
  have hTcl : T.content_length = E.content_length := by
    rw [hT]; exact (emc_topclamp_frame S).1.2.1
  have hys : emc_yscroll T = T := emc_yscroll_id T (by omega) (by omega)
  rw [hys]
  have hrawT : raw_offset T = raw_offset E + 1 := by
    unfold raw_offset
    rw [hTx, hTy, hTline, hTopl]
    ring
  have hoT : editor_offset_at_cursor T = raw_offset E + 1 := by
    rw [editor_offset_at_cursor_eq_raw T (by omega) (by omega), hrawT]
  simp only [emc_eofclamp, hoT, hTcl]
  by_cases hend : raw_offset E + 1 ≥ E.content_length - 1
  · rw [if_pos hend]
    have hco : editor_cursor_at_offset T (raw_offset E + 1) =
        (E.cursor_x + 1, E.cursor_y) := by
      have hform : raw_offset E + 1 =
          (E.cursor_y - 1 + E.line) * T.octets_per_line + E.cursor_x := by
        rw [hTopl]; unfold raw_offset; ring
      rw [hform, editor_cursor_at_offset_eq T (E.cursor_y - 1 + E.line) E.cursor_x
        (by omega) (by omega) (by rw [hTopl]; omega)]
      rw [hTline]
      simp only [Prod.mk.injEq, true_and]
      omega
    rw [hco]
    exact ⟨by simp, by simp, by simp [hTline]⟩
  · rw [if_neg hend]
    exact ⟨hTx, hTy, hTline⟩

/-- Moving right by one column at the right edge of a row, with at least
one more byte after the next offset and room below on the screen: wrap to
the first column of the next row, same scroll line. -/
theorem move_right_wrap (E : editor)
    (hopl : 1 ≤ E.octets_per_line)
    (hxe : E.cursor_x = E.octets_per_line)
    (hy1 : 1 ≤ E.cursor_y) (hy2 : E.cursor_y + 1 ≤ E.screen_rows - 1)
    (hline : 0 ≤ E.line)
    (hnext : raw_offset E + 1 ≤ E.content_length - 1) :
    (editor_move_cursor E KEY_RIGHT 1).cursor_x = 1 ∧
    (editor_move_cursor E KEY_RIGHT 1).cursor_y = E.cursor_y + 1 ∧
    (editor_move_cursor E KEY_RIGHT 1).line = E.line := by
  have hraw0 : 0 ≤ raw_offset E := by
    have hm := mul_nonneg (by omega : (0:Int) ≤ E.cursor_y - 1 + E.line)
      (by omega : (0:Int) ≤ E.octets_per_line)
    unfold raw_offset
    omega
  simp only [editor_move_cursor, emc_step_right]
  rw [if_neg (by omega)]
  set S : editor := { E with cursor_x := E.cursor_x + 1 } with hS
  have hSx : S.cursor_x = E.cursor_x + 1 := rfl
  have hSy : S.cursor_y = E.cursor_y := rfl
  have hSline : S.line = E.line := rfl
  have hSopl : S.octets_per_line = E.octets_per_line := rfl
  have hbd : emc_boundary S = { S with cursor_y := S.cursor_y + 1, cursor_x := 1 } := by
    simp only [emc_boundary]
    rw [if_neg (by omega), if_pos (by omega)]
  rw [hbd]
  set B2 : editor := { S with cursor_y := S.cursor_y + 1, cursor_x := 1 } with hB2
  have hB2x : B2.cursor_x = 1 := rfl
  have hB2y : B2.cursor_y = E.cursor_y + 1 := rfl
  have hB2line : B2.line = E.line := rfl
  have hB2opl : B2.octets_per_line = E.octets_per_line := rfl
  have hB2rows : B2.screen_rows = E.screen_rows := rfl
  have hB2cl : B2.content_length = E.content_length := rfl
  set T : editor := emc_topclamp B2 with hT
  have hTy : T.cursor_y = E.cursor_y + 1 := by
    rw [hT, emc_topclamp_cursor_y_of_ge B2 (by omega)]
  have hTx : T.cursor_x = 1 := by
    rw [hT, (emc_topclamp_frame B2).2.2]
  have hTline : T.line = E.line := by
    rw [hT, (emc_topclamp_frame B2).2.1]
  have hTopl : T.octets_per_line = E.octets_per_line := by
    rw [hT]; exact (emc_topclamp_frame B2).1.2.2.2.1
  have hTrows : T.screen_rows = E.screen_rows := by
    rw [hT]; exact (emc_topclamp_frame B2).1.2.2.2.2.1
  have hTcl : T.content_length = E.content_length := by
    rw [hT]; exact (emc_topclamp_frame B2).1.2.1
  have hys : emc_yscroll T = T := emc_yscroll_id T (by omega) (by omega)
  rw [hys]
  have hrawT : raw_offset T = raw_offset E + 1 := by
    unfold raw_offset
    rw [hTx, hTy, hTline, hTopl]
    have hr : (E.cursor_y + 1 - 1 + E.line) * E.octets_per_line + (1 - 1) =
        ((E.cursor_y - 1 + E.line) * E.octets_per_line + (E.octets_per_line - 1)) + 1 := by
      ring
    omega
  have hoT : editor_offset_at_cursor T = raw_offset E + 1 := by
    rw [editor_offset_at_cursor_eq_raw T (by omega) (by omega), hrawT]
  simp only [emc_eofclamp, hoT, hTcl]
  by_cases hend : raw_offset E + 1 ≥ E.content_length - 1
  · rw [if_pos hend]
    have hform : raw_offset E + 1 =
        (E.cursor_y + E.line) * T.octets_per_line + 0 := by
      rw [hTopl]
      have hr : (E.cursor_y + E.line) * E.octets_per_line =
          (E.cursor_y - 1 + E.line) * E.octets_per_line + E.octets_per_line := by
        ring
      unfold raw_offset
      omega
    have hco : editor_cursor_at_offset T (raw_offset E + 1) = (1, E.cursor_y + 1) := by
      rw [hform, editor_cursor_at_offset_eq T (E.cursor_y + E.line) 0
        (by omega) (by omega) (by rw [hTopl]; omega)]
      rw [hTline]
      simp only [Prod.mk.injEq]
      omega
    rw [hco]
    refine ⟨?_, ?_, ?_⟩ <;> first | omega | (simp; omega) | simp | (simp [hTline])
  · rw [if_neg hend]
    exact ⟨hTx, hTy, hTline⟩

/-- Routing through editor_process_keypress when the editor is in replace
mode and the first key is not one of the globally handled keys but fails
hex validation: only an error status is stored. -/
theorem process_keypress_replace_invalid1 (e : editor) (c : Int) (rest : List Int)
    (hmode : e.mode = MODE_REPLACE) (hglob : is_global_key c = false)
    (h1 : ishex (char_of_int c) = false) :
    editor_process_keypress e (c :: rest) =
      editor_statusmessage e STATUS_ERROR msg_not_valid_hex := by
  obtain ⟨g1, g2, g3, g4, g5, g6, g7, g8, g9, g10, g11, g12⟩ := is_global_key_false c hglob
  simp only [editor_process_keypress, if_neg g1, if_neg g2, if_neg g3, if_neg g4,
    if_neg (show ¬(c = KEY_UP ∨ c = KEY_DOWN ∨ c = KEY_RIGHT ∨ c = KEY_LEFT) by tauto),
    if_neg g9, if_neg g10, if_neg g11, if_neg g12, hmode, h1]
  simp

/-- Routing when the first key of a replacement is a valid hex character
but the second key event fails hex validation. -/
theorem process_keypress_replace_invalid2 (e : editor) (c1 c2 : Int) (rest : List Int)
    (hmode : e.mode = MODE_REPLACE) (hglob : is_global_key c1 = false)
    (h1 : ishex (char_of_int c1) = true) (h2 : ishex (char_of_int c2) = false) :
    editor_process_keypress e (c1 :: c2 :: rest) =
      editor_statusmessage e STATUS_ERROR msg_not_valid_hex := by
  obtain ⟨g1, g2, g3, g4, g5, g6, g7, g8, g9, g10, g11, g12⟩ := is_global_key_false c1 hglob
  simp only [editor_process_keypress, if_neg g1, if_neg g2, if_neg g3, if_neg g4,
    if_neg (show ¬(c1 = KEY_UP ∨ c1 = KEY_DOWN ∨ c1 = KEY_RIGHT ∨ c1 = KEY_LEFT) by tauto),
    if_neg g9, if_neg g10, if_neg g11, if_neg g12, hmode, h1, next_key, h2]
  simp

/-- Routing when both key events of a replacement are valid hex
characters: the byte is replaced and an info status is stored. -/
theorem process_keypress_replace_hex (e : editor) (c1 c2 : Int) (rest : List Int)
    (hmode : e.mode = MODE_REPLACE) (hglob : is_global_key c1 = false)
    (h1 : ishex (char_of_int c1) = true) (h2 : ishex (char_of_int c2) = true) :
    editor_process_keypress e (c1 :: c2 :: rest) =
      editor_statusmessage
        (editor_replace_byte e (hex2bin (char_of_int c1) (char_of_int c2)))
        STATUS_INFO msg_replaced_byte := by
  obtain ⟨g1, g2, g3, g4, g5, g6, g7, g8, g9, g10, g11, g12⟩ := is_global_key_false c1 hglob
  simp only [editor_process_keypress, if_neg g1, if_neg g2, if_neg g3, if_neg g4,
    if_neg (show ¬(c1 = KEY_UP ∨ c1 = KEY_DOWN ∨ c1 = KEY_RIGHT ∨ c1 = KEY_LEFT) by tauto),
    if_neg g9, if_neg g10, if_neg g11, if_neg g12, hmode, h1, next_key, h2]
  simp

/-- C7: in replace mode, when the first key event of a replacement (a key
not claimed by the global bindings) fails hex validation, or the first is
valid hex and the second key event fails hex validation, the whole
replacement is aborted: an error status is set and the buffer contents,
content_length, cursor_x, cursor_y, line and the mode (still replace) are
all unchanged. -/
theorem replace_mode_invalid_hex_aborts (e : editor) (c1 c2 : Int) (rest : List Int)
    (hmode : e.mode = MODE_REPLACE) (hglob : is_global_key c1 = false)
    (habort : ishex (char_of_int c1) = false ∨
      (ishex (char_of_int c1) = true ∧ ishex (char_of_int c2) = false)) :
    (editor_process_keypress e (c1 :: c2 :: rest)).contents = e.contents ∧
    (editor_process_keypress e (c1 :: c2 :: rest)).content_length = e.content_length ∧
    (editor_process_keypress e (c1 :: c2 :: rest)).cursor_x = e.cursor_x ∧
    (editor_process_keypress e (c1 :: c2 :: rest)).cursor_y = e.cursor_y ∧
    (editor_process_keypress e (c1 :: c2 :: rest)).line = e.line ∧
    (editor_process_keypress e (c1 :: c2 :: rest)).mode = MODE_REPLACE ∧
    (editor_process_keypress e (c1 :: c2 :: rest)).status_severity = STATUS_ERROR := by
  have hres : editor_process_keypress e (c1 :: c2 :: rest) =
      editor_statusmessage e STATUS_ERROR msg_not_valid_hex := by
    rcases habort with h1 | ⟨h1, h2⟩
    · exact process_keypress_replace_invalid1 e c1 (c2 :: rest) hmode hglob h1
    · exact process_keypress_replace_invalid2 e c1 c2 rest hmode hglob h1 h2
  rw [hres]
  exact ⟨rfl, rfl, rfl, rfl, rfl, hmode, rfl⟩

/-- Witness for C7 at a concrete input: the key z is not a hex digit. -/
theorem replace_mode_invalid_hex_aborts_witness :
    (editor_process_keypress (sample_editor [1, 2] 1 1 0 MODE_REPLACE) [122, 48]).contents
      = [1, 2] ∧
    (editor_process_keypress (sample_editor [1, 2] 1 1 0 MODE_REPLACE)
      [122, 48]).status_severity = STATUS_ERROR := by
  have h := replace_mode_invalid_hex_aborts (sample_editor [1, 2] 1 1 0 MODE_REPLACE)
    122 48 [] rfl (by decide) (Or.inl (by decide))
  exact ⟨h.1, h.2.2.2.2.2.2⟩

/-- C4 counterexample: the claimed unconditional one-step-right advance
fails at the last valid offset. With buffer [10, 20, 30] and the cursor at
(3, 1), offset 2 is the last byte; the digits a then 0 do store the byte
0xa0 there, but editor_move_cursor then hits the end-of-file clamp
(offset at cursor >= content_length - 1) and repositions the cursor to the
very same cell (3, 1): the cursor does not advance. -/
theorem replace_mode_hex_pair_no_advance :
    (editor_process_keypress (sample_editor [10, 20, 30] 3 1 0 MODE_REPLACE)
      [97, 48]).contents.getD 2 0 = 0xa0 ∧
    (editor_process_keypress (sample_editor [10, 20, 30] 3 1 0 MODE_REPLACE)
      [97, 48]).cursor_x = 3 ∧
    (editor_process_keypress (sample_editor [10, 20, 30] 3 1 0 MODE_REPLACE)
      [97, 48]).cursor_y = 1 ∧
    (editor_process_keypress (sample_editor [10, 20, 30] 3 1 0 MODE_REPLACE)
      [97, 48]).line = 0 := by
  decide

/-- C4 (amended): in replace mode, two consecutive valid hex digit key
events write the byte 16 * value(first digit) + value(second digit) (first
digit high nibble, case insensitive) at the cursor offset, leave
content_length and the buffer length unchanged, and make the digits a then
0 produce the byte 0xa0; the cursor advances one step right only when the
next offset is still valid (raw offset + 1 <= content_length - 1), either
as a plain one-column move inside the row or, at the right edge with a
free screen row below, by wrapping to the first column of the next row. -/
theorem replace_mode_hex_pair (e : editor) (c1 c2 : Int) (rest : List Int)
    (hmode : e.mode = MODE_REPLACE)
    (hhex1 : (48 ≤ c1 ∧ c1 ≤ 57) ∨ (65 ≤ c1 ∧ c1 ≤ 70) ∨ (97 ≤ c1 ∧ c1 ≤ 102))
    (hhex2 : (48 ≤ c2 ∧ c2 ≤ 57) ∨ (65 ≤ c2 ∧ c2 ≤ 70) ∨ (97 ≤ c2 ∧ c2 ≤ 102))
    (hx1 : 1 ≤ e.cursor_x) (hx2 : e.cursor_x ≤ e.octets_per_line)
    (hy1 : 1 ≤ e.cursor_y) (hy2 : e.cursor_y ≤ e.screen_rows - 1)
    (hline : 0 ≤ e.line)
    (hlen : e.content_length = (e.contents.length : Int))
    (hraw : raw_offset e ≤ e.content_length - 1) :
    ((editor_process_keypress e (c1 :: c2 :: rest)).contents.getD
        (raw_offset e).toNat 0 : Int) = 16 * hexDigitValue c1 + hexDigitValue c2 ∧
    (editor_process_keypress e (c1 :: c2 :: rest)).content_length = e.content_length ∧
    (editor_process_keypress e (c1 :: c2 :: rest)).contents.length = e.contents.length ∧
    (c1 = 97 → c2 = 48 →
      (editor_process_keypress e (c1 :: c2 :: rest)).contents.getD
        (raw_offset e).toNat 0 = 0xa0) ∧
    (e.cursor_x + 1 ≤ e.octets_per_line → raw_offset e + 1 ≤ e.content_length - 1 →
      (editor_process_keypress e (c1 :: c2 :: rest)).cursor_x = e.cursor_x + 1 ∧
      (editor_process_keypress e (c1 :: c2 :: rest)).cursor_y = e.cursor_y ∧
      (editor_process_keypress e (c1 :: c2 :: rest)).line = e.line) ∧
    (e.cursor_x = e.octets_per_line → e.cursor_y + 1 ≤ e.screen_rows - 1 →
      raw_offset e + 1 ≤ e.content_length - 1 →
      (editor_process_keypress e (c1 :: c2 :: rest)).cursor_x = 1 ∧
      (editor_process_keypress e (c1 :: c2 :: rest)).cursor_y = e.cursor_y + 1 ∧
      (editor_process_keypress e (c1 :: c2 :: rest)).line = e.line) := by
  have hb48a : 48 ≤ c1 ∧ c1 ≤ 102 := by rcases hhex1 with h | h | h <;> omega
  have hb48b : 48 ≤ c2 ∧ c2 ≤ 102 := by rcases hhex2 with h | h | h <;> omega
  have hch1 : char_of_int c1 = c1 := char_of_int_small c1 (by omega) (by omega)
  have hch2 : char_of_int c2 = c2 := char_of_int_small c2 (by omega) (by omega)
  have hisx1 : ishex (char_of_int c1) = true := by rw [hch1]; exact (ishex_iff c1).2 hhex1
  have hisx2 : ishex (char_of_int c2) = true := by rw [hch2]; exact (ishex_iff c2).2 hhex2
  have hglob : is_global_key c1 = false := by
    simp only [is_global_key, KEY_ESC, KEY_CTRL_Q, KEY_CTRL_S, KEY_UP, KEY_DOWN, KEY_RIGHT,
      KEY_LEFT, KEY_HOME, KEY_END, KEY_PAGEUP, KEY_PAGEDOWN]
    rw [if_neg (by push_neg; omega)]
  have hres := process_keypress_replace_hex e c1 c2 rest hmode hglob hisx1 hisx2
  rw [hch1, hch2] at hres
  have hr0 : 0 ≤ raw_offset e := by
    have hm := mul_nonneg (by omega : (0:Int) ≤ e.cursor_y - 1 + e.line)
      (by omega : (0:Int) ≤ e.octets_per_line)
    unfold raw_offset
    omega
  have hoff : editor_offset_at_cursor e = raw_offset e :=
    editor_offset_at_cursor_eq_raw e hr0 hraw
  obtain ⟨hVeq, hV0, hVlt⟩ := hex2bin_value c1 c2
  have hVmod : (hex2bin c1 c2).emod 256 = hex2bin c1 c2 :=
    Int.emod_eq_of_lt hV0 (by omega)
  have hrb : editor_replace_byte e (hex2bin c1 c2) =
      editor_move_cursor
        { e with contents := e.contents.set (raw_offset e).toNat (hex2bin c1 c2).toNat }
        KEY_RIGHT 1 := by
    simp only [editor_replace_byte, hoff, write_byte,
      if_neg (by omega : ¬(raw_offset e < 0)), hVmod]
  rw [hrb] at hres
  set e1 : editor :=
    { e with contents := e.contents.set (raw_offset e).toNat (hex2bin c1 c2).toNat } with he1
  have hidx : (raw_offset e).toNat < e.contents.length := by omega
  have hmf := editor_move_cursor_frame e1 KEY_RIGHT 1
  have hcontents : (editor_process_keypress e (c1 :: c2 :: rest)).contents =
      e.contents.set (raw_offset e).toNat (hex2bin c1 c2).toNat := by
    rw [hres]
    exact hmf.1
  have hbyte : (editor_process_keypress e (c1 :: c2 :: rest)).contents.getD
      (raw_offset e).toNat 0 = (hex2bin c1 c2).toNat := by
    rw [hcontents]
    exact list_getD_set_self _ _ _ hidx
  have hcl : (editor_process_keypress e (c1 :: c2 :: rest)).content_length =
      e.content_length := by
    rw [hres]
    exact hmf.2.1
  have hclen : (editor_process_keypress e (c1 :: c2 :: rest)).contents.length =
      e.contents.length := by
    rw [hcontents, List.length_set]
  refine ⟨?_, hcl, hclen, ?_, ?_, ?_⟩
  · rw [hbyte, Int.toNat_of_nonneg hV0, hVeq]
  · intro hc1v hc2v
    subst hc1v
    subst hc2v
    rw [hbyte]
    decide
  · intro hxe hnexte
    have hmr := move_right_interior e1 hx1 hxe hy1 hy2 hline hnexte
    exact ⟨by rw [hres]; exact hmr.1, by rw [hres]; exact hmr.2.1,
      by rw [hres]; exact hmr.2.2⟩
  · intro hxe hyroom hnexte
    have hopl : (1:Int) ≤ e.octets_per_line := by omega
    have hmr := move_right_wrap e1 hopl hxe hy1 hyroom hline hnexte
    exact ⟨by rw [hres]; exact hmr.1, by rw [hres]; exact hmr.2.1,
      by rw [hres]; exact hmr.2.2⟩

/-- Witness for C4 at a concrete input: replacing with a then 0 at offset
0 of a three byte buffer. -/
theorem replace_mode_hex_pair_witness :
    (editor_process_keypress (sample_editor [10, 20, 30] 1 1 0 MODE_REPLACE)
      [97, 48]).contents.getD 0 0 = 0xa0 ∧
    (editor_process_keypress (sample_editor [10, 20, 30] 1 1 0 MODE_REPLACE)
      [97, 48]).content_length = 3 ∧
    (editor_process_keypress (sample_editor [10, 20, 30] 1 1 0 MODE_REPLACE)
      [97, 48]).cursor_x = 2 := by
  have h := replace_mode_hex_pair (sample_editor [10, 20, 30] 1 1 0 MODE_REPLACE) 97 48 []
    rfl (by decide) (by decide) (by decide) (by decide) (by decide) (by decide) (by decide)
    (by decide) (by decide)
  have hz : (raw_offset (sample_editor [10, 20, 30] 1 1 0 MODE_REPLACE)).toNat = 0 := by
    decide
  refine ⟨?_, ?_, ?_⟩
  · have h4 := h.2.2.2.1 rfl rfl
    rw [hz] at h4
    exact h4
  · rw [h.2.1]
    decide
  · have h5 := (h.2.2.2.2.1 (by decide) (by decide)).1
    rw [h5]
    decide

/-! ## Bounds through the stages of editor_move_cursor -/

/-- Scrolling by one unit in either direction from a viewport whose top
row starts inside the content keeps the top row inside the content. -/
theorem editor_scroll_view (e : editor) (u : Int)
    (hopl : 1 ≤ e.octets_per_line) (hrows : 3 ≤ e.screen_rows)
    (hcl : 1 ≤ e.content_length) (hline0 : 0 ≤ e.line)
    (hview : e.line * e.octets_per_line ≤ e.content_length - 1)
    (hu : u = 1 ∨ u = -1) :
    0 ≤ (editor_scroll e u).line ∧
    (editor_scroll e u).line * e.octets_per_line ≤ e.content_length - 1 := by
  rw [editor_scroll_line]
  set U := Int.tdiv e.content_length e.octets_per_line with hU
  have hUmul : U * e.octets_per_line ≤ e.content_length := by
    rw [hU, Int.tdiv_eq_ediv (by omega) (by omega)]
    exact Int.ediv_mul_le e.content_length (by omega)
  refine ⟨by omega, ?_⟩
  rcases le_total (e.line + u) (U - (e.screen_rows - 2)) with hmin | hmin
  · rcases le_total 0 (e.line + u) with hmax | hmax
    · have hline2 : max 0 (min (e.line + u) (U - (e.screen_rows - 2))) = e.line + u := by
        omega
      rw [hline2]
      rcases hu with hu1 | hu1
      · subst hu1
        have h2 : (e.line + 1) * e.octets_per_line ≤ (U - 1) * e.octets_per_line :=
          mul_le_mul_of_nonneg_right (by omega) (by omega)
        have h3 : (U - 1) * e.octets_per_line = U * e.octets_per_line - e.octets_per_line := by
          ring
        omega
      · subst hu1
        have h2 : (e.line + -1) * e.octets_per_line =
            e.line * e.octets_per_line - e.octets_per_line := by ring
        omega
    · have hline2 : max 0 (min (e.line + u) (U - (e.screen_rows - 2))) = 0 := by omega
      rw [hline2]
      omega
  · rcases le_total 0 (U - (e.screen_rows - 2)) with hmax | hmax
    · have hline2 : max 0 (min (e.line + u) (U - (e.screen_rows - 2))) =
          U - (e.screen_rows - 2) := by omega
      rw [hline2]
      have h2 : (U - (e.screen_rows - 2)) * e.octets_per_line ≤
          (U - 1) * e.octets_per_line :=
        mul_le_mul_of_nonneg_right (by omega) (by omega)
      have h3 : (U - 1) * e.octets_per_line = U * e.octets_per_line - e.octets_per_line := by
        ring
      omega
    · have hline2 : max 0 (min (e.line + u) (U - (e.screen_rows - 2))) = 0 := by omega
      rw [hline2]
      omega

theorem emc_boundary_bounds (e : editor)
    (hopl : 1 ≤ e.octets_per_line)
    (hx : 0 ≤ e.cursor_x ∧ e.cursor_x ≤ e.octets_per_line + 1)
    (hy : 0 ≤ e.cursor_y ∧ e.cursor_y ≤ e.screen_rows)
    (hcorner : 1 ≤ e.cursor_x ∨ 1 ≤ e.cursor_y) :
    1 ≤ (emc_boundary e).cursor_x ∧ (emc_boundary e).cursor_x ≤ e.octets_per_line ∧
    0 ≤ (emc_boundary e).cursor_y ∧ (emc_boundary e).cursor_y ≤ e.screen_rows + 1 := by
  simp only [emc_boundary]
  split_ifs with h1 h2 h3 <;> first | omega | (simp; omega) | simp

theorem emc_topclamp_spec (e : editor)
    (hy : 0 ≤ e.cursor_y ∧ e.cursor_y ≤ e.screen_rows + 1) (hrows : 2 ≤ e.screen_rows) :
    0 ≤ (emc_topclamp e).cursor_y ∧ (emc_topclamp e).cursor_y ≤ e.screen_rows + 1 ∧
    ((emc_topclamp e).cursor_y ≤ 0 → 1 ≤ e.line) := by
  simp only [emc_topclamp]
  split_ifs with h1
  · first | omega | (simp; omega) | simp
  · rcases not_and_or.mp h1 with h | h <;> first | omega | (simp; omega) | simp

theorem emc_yscroll_spec (e : editor)
    (hopl : 1 ≤ e.octets_per_line) (hrows : 3 ≤ e.screen_rows)
    (hcl : 1 ≤ e.content_length) (hline0 : 0 ≤ e.line)
    (hview : e.line * e.octets_per_line ≤ e.content_length - 1)
    (hy : 0 ≤ e.cursor_y ∧ e.cursor_y ≤ e.screen_rows + 1)
    (hy0 : e.cursor_y ≤ 0 → 1 ≤ e.line) :
    (emc_yscroll e).cursor_x = e.cursor_x ∧
    1 ≤ (emc_yscroll e).cursor_y ∧ (emc_yscroll e).cursor_y ≤ e.screen_rows - 1 ∧
    0 ≤ (emc_yscroll e).line ∧
    (emc_yscroll e).line * e.octets_per_line ≤ e.content_length - 1 ∧
    (emc_yscroll e).contents = e.contents ∧
    (emc_yscroll e).content_length = e.content_length ∧
    (emc_yscroll e).octets_per_line = e.octets_per_line ∧
    (emc_yscroll e).screen_rows = e.screen_rows := by
  simp only [emc_yscroll]
  split_ifs with h1 h2
  · set E2 : editor := { e with cursor_y := e.screen_rows - 1 } with hE2
    have hv := editor_scroll_view E2 1 hopl hrows hcl hline0 hview (Or.inl rfl)
    have hf := editor_scroll_frame E2 1
    have hfy : (editor_scroll E2 1).cursor_y = e.screen_rows - 1 := hf.2.2
    have hfx : (editor_scroll E2 1).cursor_x = e.cursor_x := hf.2.1
    exact ⟨hfx, by omega, by omega, hv.1, hv.2, hf.1.1, hf.1.2.1,
      hf.1.2.2.2.1, hf.1.2.2.2.2.1⟩
  · set E2 : editor := { e with cursor_y := 1 } with hE2
    have hv := editor_scroll_view E2 (-1) hopl hrows hcl hline0 hview (Or.inr rfl)
    have hf := editor_scroll_frame E2 (-1)
    have hfy : (editor_scroll E2 (-1)).cursor_y = 1 := hf.2.2
    have hfx : (editor_scroll E2 (-1)).cursor_x = e.cursor_x := hf.2.1
    exact ⟨hfx, by omega, by omega, hv.1, hv.2, hf.1.1, hf.1.2.1,
      hf.1.2.2.2.1, hf.1.2.2.2.2.1⟩
  · have hy1 : 1 ≤ e.cursor_y := by
      rcases le_or_lt e.cursor_y 0 with hc | hc
      · have hl1 := hy0 hc
        rcases not_and_or.mp h2 with h | h
        · omega
        · omega
      · omega
    exact ⟨rfl, hy1, by omega, hline0, hview, rfl, rfl, rfl, rfl⟩

theorem emc_eofclamp_bounds (e : editor)
    (hopl : 1 ≤ e.octets_per_line) (hrows : 3 ≤ e.screen_rows)
    (hcl : 1 ≤ e.content_length) (hline0 : 0 ≤ e.line)
    (hview : e.line * e.octets_per_line ≤ e.content_length - 1)
    (hx : 1 ≤ e.cursor_x ∧ e.cursor_x ≤ e.octets_per_line)
    (hy : 1 ≤ e.cursor_y ∧ e.cursor_y ≤ e.screen_rows - 1) :
    1 ≤ (emc_eofclamp e).cursor_x ∧ (emc_eofclamp e).cursor_x ≤ e.octets_per_line ∧
    1 ≤ (emc_eofclamp e).cursor_y ∧ (emc_eofclamp e).cursor_y ≤ e.screen_rows - 1 := by
  have hmem := editor_offset_at_cursor_mem e hcl
  simp only [emc_eofclamp]
  split_ifs with h1
  · have hoeq : editor_offset_at_cursor e = e.content_length - 1 := by omega
    have hcases : raw_offset e ≥ e.content_length - 1 ∨ e.content_length = 1 := by
      simp only [editor_offset_at_cursor] at h1
      split_ifs at h1 <;> omega
    have hlt : e.content_length - 1 < (e.line + e.screen_rows - 1) * e.octets_per_line := by
      rcases hcases with hc | hc
      · have hm : (e.cursor_y - 1 + e.line) * e.octets_per_line ≤
            (e.line + e.screen_rows - 2) * e.octets_per_line :=
          mul_le_mul_of_nonneg_right (by omega) (by omega)
        have hring : (e.line + e.screen_rows - 2) * e.octets_per_line + e.octets_per_line =
            (e.line + e.screen_rows - 1) * e.octets_per_line := by ring
        unfold raw_offset at hc
        omega
      · have hl0 : e.line = 0 := by
          by_contra hne
          have hll : 1 ≤ e.line := by omega
          have hmm := mul_le_mul_of_nonneg_right hll
            (by omega : (0:Int) ≤ e.octets_per_line)
          rw [one_mul] at hmm
          omega
        have hpos : 0 < (e.line + e.screen_rows - 1) * e.octets_per_line := by
          have hmm := mul_le_mul_of_nonneg_right
            (by omega : (1:Int) ≤ e.line + e.screen_rows - 1)
            (by omega : (0:Int) ≤ e.octets_per_line)
          rw [one_mul] at hmm
          omega
        omega
    have ha : (0:Int) ≤ e.content_length - 1 := by omega
    have hb : (0:Int) ≤ e.octets_per_line := by omega
    have hdiv : e.line ≤ (e.content_length - 1) / e.octets_per_line := by
      rw [Int.le_ediv_iff_mul_le (by omega : (0:Int) < e.octets_per_line)]
      exact hview
    have hru : (e.content_length - 1) / e.octets_per_line < e.line + e.screen_rows - 1 :=
      (Int.ediv_lt_iff_lt_mul (by omega : (0:Int) < e.octets_per_line)).2 hlt
    have hm0 : 0 ≤ (e.content_length - 1) % e.octets_per_line :=
      Int.emod_nonneg _ (by omega)
    have hm1 : (e.content_length - 1) % e.octets_per_line < e.octets_per_line :=
      Int.emod_lt_of_pos _ (by omega)
    rw [hoeq]
    simp only [editor_cursor_at_offset, Int.tmod_eq_emod ha hb, Int.tdiv_eq_ediv ha hb]
    refine ⟨?_, ?_, ?_, ?_⟩ <;> first | omega | (simp; omega) | simp
  · exact ⟨hx.1, hx.2, hy.1, hy.2⟩

/-- The part of editor_move_cursor after the movement switch and the
start-of-file early return keeps the cursor inside the screen bounds. -/
theorem emc_adjust_bounds (e1 : editor)
    (hopl : 1 ≤ e1.octets_per_line) (hrows : 3 ≤ e1.screen_rows)
    (hcl : 1 ≤ e1.content_length) (hline0 : 0 ≤ e1.line)
    (hview : e1.line * e1.octets_per_line ≤ e1.content_length - 1)
    (hx : 0 ≤ e1.cursor_x ∧ e1.cursor_x ≤ e1.octets_per_line + 1)
    (hy : 0 ≤ e1.cursor_y ∧ e1.cursor_y ≤ e1.screen_rows)
    (hcorner : 1 ≤ e1.cursor_x ∨ 1 ≤ e1.cursor_y) :
    1 ≤ (emc_eofclamp (emc_yscroll (emc_topclamp (emc_boundary e1)))).cursor_x ∧
    (emc_eofclamp (emc_yscroll (emc_topclamp (emc_boundary e1)))).cursor_x ≤
      e1.octets_per_line ∧
    1 ≤ (emc_eofclamp (emc_yscroll (emc_topclamp (emc_boundary e1)))).cursor_y ∧
    (emc_eofclamp (emc_yscroll (emc_topclamp (emc_boundary e1)))).cursor_y ≤
      e1.screen_rows - 1 := by
  set B := emc_boundary e1 with hB
  have hBb := emc_boundary_bounds e1 hopl hx hy hcorner
  have hBf := emc_boundary_frame e1
  have hBopl : B.octets_per_line = e1.octets_per_line := hBf.1.2.2.2.1
  have hBrows : B.screen_rows = e1.screen_rows := hBf.1.2.2.2.2.1
  have hBcl : B.content_length = e1.content_length := hBf.1.2.1
  have hBline : B.line = e1.line := hBf.2
  have hBx1 : 1 ≤ B.cursor_x := hBb.1
  have hBx2 : B.cursor_x ≤ e1.octets_per_line := hBb.2.1
  have hBy1 : 0 ≤ B.cursor_y := hBb.2.2.1
  have hBy2 : B.cursor_y ≤ e1.screen_rows + 1 := hBb.2.2.2
  have hBview : B.line * B.octets_per_line ≤ B.content_length - 1 := by
    rw [hBline, hBopl, hBcl]
    exact hview
  set T := emc_topclamp B with hT
  have hTs := emc_topclamp_spec B (by omega) (by omega)
  have hTf := emc_topclamp_frame B
  have hTopl : T.octets_per_line = B.octets_per_line := hTf.1.2.2.2.1
  have hTrows : T.screen_rows = B.screen_rows := hTf.1.2.2.2.2.1
  have hTcl : T.content_length = B.content_length := hTf.1.2.1
  have hTline : T.line = B.line := hTf.2.1
  have hTx : T.cursor_x = B.cursor_x := hTf.2.2
  have hTy1 : 0 ≤ T.cursor_y := hTs.1
  have hTy2 : T.cursor_y ≤ B.screen_rows + 1 := hTs.2.1
  have hTview : T.line * T.octets_per_line ≤ T.content_length - 1 := by
    rw [hTline, hTopl, hTcl]
    exact hBview
  have hTy0 : T.cursor_y ≤ 0 → 1 ≤ T.line := by
    intro hv
    rw [hTline]
    exact hTs.2.2 hv
  set Y := emc_yscroll T with hY
  have hYs := emc_yscroll_spec T (by omega) (by omega) (by omega) (by omega) hTview
    (by omega) hTy0
  have hYx : Y.cursor_x = T.cursor_x := hYs.1
  have hYy1 : 1 ≤ Y.cursor_y := hYs.2.1
  have hYy2 : Y.cursor_y ≤ T.screen_rows - 1 := hYs.2.2.1
  have hYl0 : 0 ≤ Y.line := hYs.2.2.2.1
  have hYview0 : Y.line * T.octets_per_line ≤ T.content_length - 1 := hYs.2.2.2.2.1
  have hYcl : Y.content_length = T.content_length := hYs.2.2.2.2.2.2.1
  have hYopl : Y.octets_per_line = T.octets_per_line := hYs.2.2.2.2.2.2.2.1
  have hYrows : Y.screen_rows = T.screen_rows := hYs.2.2.2.2.2.2.2.2
  have hYview : Y.line * Y.octets_per_line ≤ Y.content_length - 1 := by
    rw [hYopl, hYcl]
    exact hYview0
  have hE := emc_eofclamp_bounds Y (by omega) (by omega) (by omega) hYl0 hYview
    (by omega) (by omega)
  have hEx1 : 1 ≤ (emc_eofclamp Y).cursor_x := hE.1
  have hEx2 : (emc_eofclamp Y).cursor_x ≤ Y.octets_per_line := hE.2.1
  have hEy1 : 1 ≤ (emc_eofclamp Y).cursor_y := hE.2.2.1
  have hEy2 : (emc_eofclamp Y).cursor_y ≤ Y.screen_rows - 1 := hE.2.2.2
  exact ⟨hEx1, by omega, hEy1, by omega⟩

/-- C10 (counterexample): the claim fails as stated, with no constraint on
the buffer: on an empty buffer (content_length 0) with octets_per_line 16,
screen_rows 24, cursor (2, 1) and line 0, moving right by one drives
cursor_x to 0, outside the claimed interval from 1 to octets_per_line. -/
theorem move_cursor_out_of_bounds_example :
    (editor_move_cursor (sample_editor [] 2 1 0 MODE_NORMAL) KEY_RIGHT 1).cursor_x = 0 ∧
    ¬(1 ≤ (editor_move_cursor (sample_editor [] 2 1 0 MODE_NORMAL) KEY_RIGHT 1).cursor_x) :=
  ⟨by decide, by decide⟩

/-- C10 (amended): for an editor state with cursor_x between 1 and
octets_per_line, cursor_y between 1 and screen_rows - 1, nonnegative line,
octets_per_line at least 1, and additionally a nonempty buffer
(content_length at least 1), screen_rows at least 3, and a viewport whose
top row starts inside the content (line * octets_per_line at most
content_length - 1), editor_move_cursor with any of the four directions
and amount 1 keeps cursor_x between 1 and octets_per_line and cursor_y
between 1 and screen_rows - 1. -/
theorem move_cursor_bounds (e : editor) (dir : Int)
    (hdir : dir = KEY_UP ∨ dir = KEY_DOWN ∨ dir = KEY_LEFT ∨ dir = KEY_RIGHT)
    (hopl : 1 ≤ e.octets_per_line) (hrows : 3 ≤ e.screen_rows)
    (hx1 : 1 ≤ e.cursor_x) (hx2 : e.cursor_x ≤ e.octets_per_line)
    (hy1 : 1 ≤ e.cursor_y) (hy2 : e.cursor_y ≤ e.screen_rows - 1)
    (hline : 0 ≤ e.line) (hcl : 1 ≤ e.content_length)
    (hview : e.line * e.octets_per_line ≤ e.content_length - 1) :
    1 ≤ (editor_move_cursor e dir 1).cursor_x ∧
    (editor_move_cursor e dir 1).cursor_x ≤ e.octets_per_line ∧
    1 ≤ (editor_move_cursor e dir 1).cursor_y ∧
    (editor_move_cursor e dir 1).cursor_y ≤ e.screen_rows - 1 := by
  rcases hdir with hd | hd | hd | hd
  · subst hd
    simp only [editor_move_cursor, emc_step_up]
    split_ifs with hbr
    · first | omega | (simp; omega) | simp
    · exact emc_adjust_bounds _ hopl hrows hcl hline hview
        (by first | omega | (simp; omega) | simp)
        (by first | omega | (simp; omega) | simp)
        (by first | omega | (simp; omega) | simp)
  · subst hd
    simp only [editor_move_cursor, emc_step_down]
    split_ifs with hbr
    · first | omega | (simp; omega) | simp
    · exact emc_adjust_bounds _ hopl hrows hcl hline hview
        (by first | omega | (simp; omega) | simp)
        (by first | omega | (simp; omega) | simp)
        (by first | omega | (simp; omega) | simp)
  · subst hd
    simp only [editor_move_cursor, emc_step_left]
    split_ifs with hbr
    · first | omega | (simp; omega) | simp
    · exact emc_adjust_bounds _ hopl hrows hcl hline hview
        (by first | omega | (simp; omega) | simp)
        (by first | omega | (simp; omega) | simp)
        (by first | omega | (simp; omega) | simp)
  · subst hd
    simp only [editor_move_cursor, emc_step_right]
    split_ifs with hbr
    · first | omega | (simp; omega) | simp
    · exact emc_adjust_bounds _ hopl hrows hcl hline hview
        (by first | omega | (simp; omega) | simp)
        (by first | omega | (simp; omega) | simp)
        (by first | omega | (simp; omega) | simp)

/-- Witness for the amended C10 at a concrete input. -/
theorem move_cursor_bounds_witness :
    1 ≤ (editor_move_cursor (sample_editor (List.replicate 40 7) 5 2 0 MODE_NORMAL)
      KEY_DOWN 1).cursor_x ∧
    (editor_move_cursor (sample_editor (List.replicate 40 7) 5 2 0 MODE_NORMAL)
      KEY_DOWN 1).cursor_x ≤ 16 ∧
    1 ≤ (editor_move_cursor (sample_editor (List.replicate 40 7) 5 2 0 MODE_NORMAL)
      KEY_DOWN 1).cursor_y ∧
    (editor_move_cursor (sample_editor (List.replicate 40 7) 5 2 0 MODE_NORMAL)
      KEY_DOWN 1).cursor_y ≤ 23 := by
  have h := move_cursor_bounds (sample_editor (List.replicate 40 7) 5 2 0 MODE_NORMAL)
    KEY_DOWN (Or.inr (Or.inl rfl)) (by decide) (by decide) (by decide) (by decide)
    (by decide) (by decide) (by decide) (by decide) (by decide)
  exact ⟨h.1, h.2.1, h.2.2.1, h.2.2.2⟩

/-! ## Moving left after deleting the last byte -/

/-- Moving left from the top-left corner with no scroll: the early return
keeps the cursor at (1, 1). -/
theorem move_left_start (F : editor)
    (hx1e : F.cursor_x = 1) (hy1e : F.cursor_y = 1) (hl0 : F.line = 0) :
    (editor_move_cursor F KEY_LEFT 1).cursor_x = 1 ∧
    (editor_move_cursor F KEY_LEFT 1).cursor_y = 1 ∧
    (editor_move_cursor F KEY_LEFT 1).line = F.line := by
  simp only [editor_move_cursor, emc_step_left]
  split_ifs with hbr
  · first | omega | (simp; omega) | simp
  · exfalso
    apply hbr
    first | omega | (simp; omega) | simp

/-- Moving left by one column from a cursor sitting one position past the
end of the buffer, strictly inside a row: one column left, same row, same
scroll line. -/
theorem move_left_interior (F : editor)
    (hx2 : F.cursor_x ≤ F.octets_per_line) (hxc : 2 ≤ F.cursor_x)
    (hy1 : 1 ≤ F.cursor_y) (hy2 : F.cursor_y ≤ F.screen_rows - 1)
    (hline : 0 ≤ F.line)
    (hpast : raw_offset F = F.content_length) :
    (editor_move_cursor F KEY_LEFT 1).cursor_x = F.cursor_x - 1 ∧
    (editor_move_cursor F KEY_LEFT 1).cursor_y = F.cursor_y ∧
    (editor_move_cursor F KEY_LEFT 1).line = F.line := by
  have hopl : 1 ≤ F.octets_per_line := by omega
  have hq0 : 0 ≤ F.cursor_y - 1 + F.line := by omega
  have hraw1 : 1 ≤ raw_offset F := by
    have hm := mul_nonneg hq0 (by omega : (0:Int) ≤ F.octets_per_line)
    unfold raw_offset
    omega
  simp only [editor_move_cursor, emc_step_left]
  split_ifs with hbr
  · first | omega | (simp; omega) | simp
  · set S : editor := { F with cursor_x := F.cursor_x - 1 } with hS
    have hSx : S.cursor_x = F.cursor_x - 1 := rfl
    have hSy : S.cursor_y = F.cursor_y := rfl
    have hSline : S.line = F.line := rfl
    have hSopl : S.octets_per_line = F.octets_per_line := rfl
    have hSrows : S.screen_rows = F.screen_rows := rfl
    have hScl : S.content_length = F.content_length := rfl
    have hbd : emc_boundary S = S := by
      simp only [emc_boundary]
      rw [if_neg (by omega), if_neg (by omega)]
    rw [hbd]
    set T : editor := emc_topclamp S with hT
    have hTy : T.cursor_y = F.cursor_y := by
      rw [hT, emc_topclamp_cursor_y_of_ge S (by omega)]
    have hTx : T.cursor_x = F.cursor_x - 1 := by
      rw [hT, (emc_topclamp_frame S).2.2]
    have hTline : T.line = F.line := by
      rw [hT, (emc_topclamp_frame S).2.1]
    have hTopl : T.octets_per_line = F.octets_per_line := by
      rw [hT]; exact (emc_topclamp_frame S).1.2.2.2.1
    have hTrows : T.screen_rows = F.screen_rows := by
      rw [hT]; exact (emc_topclamp_frame S).1.2.2.2.2.1
    have hTcl : T.content_length = F.content_length := by
      rw [hT]; exact (emc_topclamp_frame S).1.2.1
    have hys : emc_yscroll T = T := emc_yscroll_id T (by omega) (by omega)
    rw [hys]
    have hrawT : raw_offset T = raw_offset F - 1 := by
      unfold raw_offset
      rw [hTx, hTy, hTline, hTopl]
      ring
    have hoT : editor_offset_at_cursor T = F.content_length - 1 := by
      rw [editor_offset_at_cursor_eq_raw T (by omega) (by omega), hrawT, hpast]
    simp only [emc_eofclamp, hoT, hTcl]
    rw [if_pos (by omega)]
    have hform : F.content_length - 1 =
        (F.cursor_y - 1 + F.line) * T.octets_per_line + (F.cursor_x - 2) := by
      rw [hTopl]
      unfold raw_offset at hpast
      omega
    have hco : editor_cursor_at_offset T (F.content_length - 1) =
        (F.cursor_x - 1, F.cursor_y) := by
      rw [hform, editor_cursor_at_offset_eq T (F.cursor_y - 1 + F.line) (F.cursor_x - 2)
        hq0 (by omega) (by rw [hTopl]; omega)]
      rw [hTline]
      simp only [Prod.mk.injEq]
      omega
    rw [hco]
    refine ⟨?_, ?_, ?_⟩ <;> first | omega | (simp; omega) | simp | (simp [hTline])

/-- Moving left by one column from a cursor one past the end of the
buffer at the left edge of a row below the top visible row: wrap to the
rightmost column of the previous row, same scroll line. -/
theorem move_left_wrap (F : editor)
    (hopl : 1 ≤ F.octets_per_line)
    (hx1e : F.cursor_x = 1)
    (hyc : 2 ≤ F.cursor_y) (hy2 : F.cursor_y ≤ F.screen_rows - 1)
    (hline : 0 ≤ F.line)
    (hpast : raw_offset F = F.content_length) :
    (editor_move_cursor F KEY_LEFT 1).cursor_x = F.octets_per_line ∧
    (editor_move_cursor F KEY_LEFT 1).cursor_y = F.cursor_y - 1 ∧
    (editor_move_cursor F KEY_LEFT 1).line = F.line := by
  have hq0 : 0 ≤ F.cursor_y - 2 + F.line := by omega
  have hrawF : raw_offset F = (F.cursor_y - 1 + F.line) * F.octets_per_line := by
    unfold raw_offset
    omega
  have hclopl : F.octets_per_line ≤ F.content_length := by
    have hm := mul_le_mul_of_nonneg_right (by omega : (1:Int) ≤ F.cursor_y - 1 + F.line)
      (by omega : (0:Int) ≤ F.octets_per_line)
    rw [one_mul] at hm
    omega
  simp only [editor_move_cursor, emc_step_left]
  split_ifs with hbr
  · exfalso
    omega
  · set S : editor := { F with cursor_x := F.cursor_x - 1 } with hS
    have hSx : S.cursor_x = F.cursor_x - 1 := rfl
    have hSy : S.cursor_y = F.cursor_y := rfl
    have hSline : S.line = F.line := rfl
    have hSopl : S.octets_per_line = F.octets_per_line := rfl
    have hbd : emc_boundary S =
        { S with cursor_y := S.cursor_y - 1, cursor_x := S.octets_per_line } := by
      simp only [emc_boundary]
      rw [if_pos (by omega), if_pos (by omega)]
    rw [hbd]
    set B2 : editor :=
      { S with cursor_y := S.cursor_y - 1, cursor_x := S.octets_per_line } with hB2
    have hB2x : B2.cursor_x = F.octets_per_line := rfl
    have hB2y : B2.cursor_y = F.cursor_y - 1 := rfl
    have hB2line : B2.line = F.line := rfl
    have hB2opl : B2.octets_per_line = F.octets_per_line := rfl
    have hB2rows : B2.screen_rows = F.screen_rows := rfl
    have hB2cl : B2.content_length = F.content_length := rfl
    set T : editor := emc_topclamp B2 with hT
    have hTy : T.cursor_y = F.cursor_y - 1 := by
      rw [hT, emc_topclamp_cursor_y_of_ge B2 (by omega)]
    have hTx : T.cursor_x = F.octets_per_line := by
      rw [hT, (emc_topclamp_frame B2).2.2]
    have hTline : T.line = F.line := by
      rw [hT, (emc_topclamp_frame B2).2.1]
    have hTopl : T.octets_per_line = F.octets_per_line := by
      rw [hT]; exact (emc_topclamp_frame B2).1.2.2.2.1
    have hTrows : T.screen_rows = F.screen_rows := by
      rw [hT]; exact (emc_topclamp_frame B2).1.2.2.2.2.1
    have hTcl : T.content_length = F.content_length := by
      rw [hT]; exact (emc_topclamp_frame B2).1.2.1
    have hys : emc_yscroll T = T := emc_yscroll_id T (by omega) (by omega)
    rw [hys]
    have hrawT : raw_offset T = F.content_length - 1 := by
      unfold raw_offset
      rw [hTx, hTy, hTline, hTopl]
      have hr : (F.cursor_y - 1 - 1 + F.line) * F.octets_per_line +
          F.octets_per_line = (F.cursor_y - 1 + F.line) * F.octets_per_line := by
        ring
      omega
    have hoT : editor_offset_at_cursor T = F.content_length - 1 := by
      rw [editor_offset_at_cursor_eq_raw T (by omega) (by omega), hrawT]
    simp only [emc_eofclamp, hoT, hTcl]
    rw [if_pos (by omega)]
    have hform : F.content_length - 1 =
        (F.cursor_y - 2 + F.line) * T.octets_per_line + (F.octets_per_line - 1) := by
      rw [hTopl]
      have hr : (F.cursor_y - 2 + F.line) * F.octets_per_line + F.octets_per_line =
          (F.cursor_y - 1 + F.line) * F.octets_per_line := by
        ring
      omega
    have hco : editor_cursor_at_offset T (F.content_length - 1) =
        (F.octets_per_line, F.cursor_y - 1) := by
      rw [hform, editor_cursor_at_offset_eq T (F.cursor_y - 2 + F.line)
        (F.octets_per_line - 1) hq0 (by omega) (by rw [hTopl]; omega)]
      rw [hTline]
      simp only [Prod.mk.injEq]
      omega
    rw [hco]
    refine ⟨?_, ?_, ?_⟩ <;> first | omega | (simp; omega) | simp | (simp [hTline])

/-- Moving left by one column from a cursor one past the end of the
buffer at the top-left visible position with a scrolled viewport: wrap to
the rightmost column of the row above, scrolling the view up. -/
theorem move_left_scrollup (F : editor)
    (hopl : 1 ≤ F.octets_per_line)
    (hx1e : F.cursor_x = 1) (hy1e : F.cursor_y = 1)
    (hl1 : 1 ≤ F.line) (hrows : 2 ≤ F.screen_rows)
    (hpast : raw_offset F = F.content_length) :
    (editor_move_cursor F KEY_LEFT 1).cursor_x = F.octets_per_line ∧
    (editor_move_cursor F KEY_LEFT 1).cursor_y = 1 ∧
    0 ≤ (editor_move_cursor F KEY_LEFT 1).line ∧
    (editor_move_cursor F KEY_LEFT 1).line ≤ F.line - 1 := by
  have hrawF : raw_offset F = F.line * F.octets_per_line := by
    unfold raw_offset
    rw [hx1e, hy1e]
    ring
  have hcl : F.content_length = F.line * F.octets_per_line := by omega
  have hcl1 : 1 ≤ F.content_length := by
    have hm := mul_le_mul_of_nonneg_right hl1 (by omega : (0:Int) ≤ F.octets_per_line)
    rw [one_mul] at hm
    omega
  simp only [editor_move_cursor, emc_step_left]
  split_ifs with hbr
  · exfalso
    omega
  · set S : editor := { F with cursor_x := F.cursor_x - 1 } with hS
    have hSx : S.cursor_x = F.cursor_x - 1 := rfl
    have hSy : S.cursor_y = F.cursor_y := rfl
    have hSline : S.line = F.line := rfl
    have hbd : emc_boundary S =
        { S with cursor_y := S.cursor_y - 1, cursor_x := S.octets_per_line } := by
      simp only [emc_boundary]
      rw [if_pos (by omega), if_pos (by omega)]
    rw [hbd]
    set B2 : editor :=
      { S with cursor_y := S.cursor_y - 1, cursor_x := S.octets_per_line } with hB2
    have hB2x : B2.cursor_x = F.octets_per_line := rfl
    have hB2y : B2.cursor_y = F.cursor_y - 1 := rfl
    have hB2line : B2.line = F.line := rfl
    have hB2opl : B2.octets_per_line = F.octets_per_line := rfl
    have hB2rows : B2.screen_rows = F.screen_rows := rfl
    have hB2cl : B2.content_length = F.content_length := rfl
    have htc : emc_topclamp B2 = B2 := by
      simp only [emc_topclamp]
      rw [if_neg (by omega)]
    rw [htc]
    have hyscr : emc_yscroll B2 = editor_scroll { B2 with cursor_y := 1 } (-1) := by
      simp only [emc_yscroll]
      rw [if_neg (by omega), if_pos (by omega)]
    rw [hyscr]
    set E2 : editor := { B2 with cursor_y := 1 } with hE2
    have hE2x : E2.cursor_x = F.octets_per_line := rfl
    have hE2y : E2.cursor_y = 1 := rfl
    have hE2line : E2.line = F.line := rfl
    have hE2opl : E2.octets_per_line = F.octets_per_line := rfl
    have hE2rows : E2.screen_rows = F.screen_rows := rfl
    have hE2cl : E2.content_length = F.content_length := rfl
    have hZf := editor_scroll_frame E2 (-1)
    have hZx : (editor_scroll E2 (-1)).cursor_x = F.octets_per_line := hZf.2.1
    have hZy : (editor_scroll E2 (-1)).cursor_y = 1 := hZf.2.2
    have hZopl : (editor_scroll E2 (-1)).octets_per_line = F.octets_per_line :=
      hZf.1.2.2.2.1
    have hZcl : (editor_scroll E2 (-1)).content_length = F.content_length := hZf.1.2.1
    have hZl := editor_scroll_line E2 (-1)
    have hL0 : 0 ≤ (editor_scroll E2 (-1)).line := by
      rw [hZl]
      omega
    have hL1 : (editor_scroll E2 (-1)).line ≤ F.line - 1 := by
      rw [hZl]
      have hEl : E2.line = F.line := rfl
      omega
    have hrawZ : raw_offset (editor_scroll E2 (-1)) =
        ((editor_scroll E2 (-1)).line + 1) * F.octets_per_line - 1 := by
      unfold raw_offset
      rw [hZx, hZy, hZopl]
      ring
    have hrawZ0 : 0 ≤ raw_offset (editor_scroll E2 (-1)) := by
      have hm := mul_le_mul_of_nonneg_right
        (by omega : (1:Int) ≤ (editor_scroll E2 (-1)).line + 1)
        (by omega : (0:Int) ≤ F.octets_per_line)
      rw [one_mul] at hm
      omega
    have hrawZub : raw_offset (editor_scroll E2 (-1)) ≤ F.content_length - 1 := by
      have hm := mul_le_mul_of_nonneg_right
        (by omega : (editor_scroll E2 (-1)).line + 1 ≤ F.line)
        (by omega : (0:Int) ≤ F.octets_per_line)
      omega
    have hoZ : editor_offset_at_cursor (editor_scroll E2 (-1)) =
        ((editor_scroll E2 (-1)).line + 1) * F.octets_per_line - 1 := by
      rw [editor_offset_at_cursor_eq_raw (editor_scroll E2 (-1)) hrawZ0 (by omega), hrawZ]
    simp only [emc_eofclamp, hoZ, hZcl]
    by_cases hc : ((editor_scroll E2 (-1)).line + 1) * F.octets_per_line - 1 ≥
        F.content_length - 1
    · rw [if_pos hc]
      have hform : ((editor_scroll E2 (-1)).line + 1) * F.octets_per_line - 1 =
          (editor_scroll E2 (-1)).line * (editor_scroll E2 (-1)).octets_per_line +
            (F.octets_per_line - 1) := by
        rw [hZopl]
        ring
      have hco : editor_cursor_at_offset (editor_scroll E2 (-1))
          (((editor_scroll E2 (-1)).line + 1) * F.octets_per_line - 1) =
          (F.octets_per_line, 1) := by
        rw [hform, editor_cursor_at_offset_eq (editor_scroll E2 (-1))
          ((editor_scroll E2 (-1)).line) (F.octets_per_line - 1) hL0 (by omega)
          (by rw [hZopl]; omega)]
        simp only [Prod.mk.injEq]
        omega
      rw [hco]
      refine ⟨?_, ?_, ?_, ?_⟩ <;> first | omega | (simp; omega) | simp
    · rw [if_neg hc]
      exact ⟨hZx, hZy, hL0, hL1⟩

/-- C5: deleting the byte at the cursor when the cursor sits at the last
valid offset (raw offset content_length - 1, nonempty buffer) decreases
content_length by exactly one, removes exactly that byte (keeping every
earlier byte), and moves the cursor one column left: one column left in
the interior of a row, wrapping to the rightmost column of the previous
row at the left edge (scrolling the view up when already on the top
visible row), and staying at (1, 1) when the deleted byte was the only
one; afterwards the cursor offset does not point past the new end of the
buffer. -/
theorem delete_at_last_offset (e : editor)
    (hx1 : 1 ≤ e.cursor_x) (hx2 : e.cursor_x ≤ e.octets_per_line)
    (hy1 : 1 ≤ e.cursor_y) (hy2 : e.cursor_y ≤ e.screen_rows - 1)
    (hline : 0 ≤ e.line)
    (hlen : e.content_length = (e.contents.length : Int))
    (hcl : 1 ≤ e.content_length)
    (hlast : raw_offset e = e.content_length - 1) :
    (editor_delete_char_at_cursor e).content_length = e.content_length - 1 ∧
    (editor_delete_char_at_cursor e).contents =
      e.contents.take (e.content_length - 1).toNat ∧
    (2 ≤ e.cursor_x →
      (editor_delete_char_at_cursor e).cursor_x = e.cursor_x - 1 ∧
      (editor_delete_char_at_cursor e).cursor_y = e.cursor_y ∧
      (editor_delete_char_at_cursor e).line = e.line) ∧
    (e.cursor_x = 1 → 2 ≤ e.cursor_y →
      (editor_delete_char_at_cursor e).cursor_x = e.octets_per_line ∧
      (editor_delete_char_at_cursor e).cursor_y = e.cursor_y - 1 ∧
      (editor_delete_char_at_cursor e).line = e.line) ∧
    (e.cursor_x = 1 → e.cursor_y = 1 → 1 ≤ e.line →
      (editor_delete_char_at_cursor e).cursor_x = e.octets_per_line ∧
      (editor_delete_char_at_cursor e).cursor_y = 1 ∧
      (editor_delete_char_at_cursor e).line ≤ e.line - 1) ∧
    (e.content_length = 1 →
      (editor_delete_char_at_cursor e).cursor_x = 1 ∧
      (editor_delete_char_at_cursor e).cursor_y = 1) ∧
    (2 ≤ e.content_length →
      raw_offset (editor_delete_char_at_cursor e) ≤
        (editor_delete_char_at_cursor e).content_length - 1) := by
  have hopl : 1 ≤ e.octets_per_line := by omega
  have hr0 : 0 ≤ raw_offset e := by omega
  have hoff : editor_offset_at_cursor e = e.content_length - 1 := by
    rw [editor_offset_at_cursor_eq_raw e hr0 (by omega), hlast]
  have hdrop : e.contents.drop ((e.content_length - 1).toNat + 1) = [] :=
    List.drop_eq_nil_of_le (by omega)
  have hdel : editor_delete_char_at_cursor e =
      editor_move_cursor
        { e with contents := e.contents.take (e.content_length - 1).toNat,
                 content_length := e.content_length - 1 } KEY_LEFT 1 := by
    simp only [editor_delete_char_at_cursor, hoff]
    rw [if_neg (by omega), hdrop, List.append_nil, if_pos (by omega)]
  set F : editor :=
    { e with contents := e.contents.take (e.content_length - 1).toNat,
             content_length := e.content_length - 1 } with hF
  have hFx : F.cursor_x = e.cursor_x := rfl
  have hFy : F.cursor_y = e.cursor_y := rfl
  have hFline : F.line = e.line := rfl
  have hFopl : F.octets_per_line = e.octets_per_line := rfl
  have hFrows : F.screen_rows = e.screen_rows := rfl
  have hFcl : F.content_length = e.content_length - 1 := rfl
  have hpastF : raw_offset F = F.content_length := by
    have hrr : raw_offset F = raw_offset e := rfl
    omega
  have hmf := editor_move_cursor_frame F KEY_LEFT 1
  have hMopl : (editor_move_cursor F KEY_LEFT 1).octets_per_line = e.octets_per_line :=
    hmf.2.2.2.1
  have hMcl : (editor_move_cursor F KEY_LEFT 1).content_length = e.content_length - 1 :=
    hmf.2.1
  rw [hdel]
  refine ⟨hMcl, hmf.1, ?_, ?_, ?_, ?_, ?_⟩
  · intro hxc
    exact move_left_interior F hx2 hxc hy1 hy2 hline hpastF
  · intro h1 h2
    exact move_left_wrap F hopl h1 h2 hy2 hline hpastF
  · intro h1 h2 h3
    have hC := move_left_scrollup F hopl h1 h2 h3 (by omega) hpastF
    exact ⟨hC.1, hC.2.1, hC.2.2.2⟩
  · intro hcl1
    have hq0e : e.cursor_y - 1 + e.line = 0 := by
      by_contra hne
      have h1q : 1 ≤ e.cursor_y - 1 + e.line := by omega
      have hm := mul_le_mul_of_nonneg_right h1q (by omega : (0:Int) ≤ e.octets_per_line)
      rw [one_mul] at hm
      unfold raw_offset at hlast
      omega
    have hprod : (e.cursor_y - 1 + e.line) * e.octets_per_line = 0 := by
      rw [hq0e]
      ring
    have hx1e : e.cursor_x = 1 := by
      unfold raw_offset at hlast
      omega
    have hD := move_left_start F (by rw [hFx]; exact hx1e)
      (by rw [hFy]; omega) (by rw [hFline]; omega)
    exact ⟨hD.1, hD.2.1⟩
  · intro hcl2
    by_cases hxc : 2 ≤ e.cursor_x
    · have hA := move_left_interior F hx2 hxc hy1 hy2 hline hpastF
      unfold raw_offset
      rw [hA.1, hA.2.1, hA.2.2, hMopl, hMcl, hFx, hFy, hFline]
      unfold raw_offset at hlast
      omega
    · by_cases hyc : 2 ≤ e.cursor_y
      · have hB := move_left_wrap F hopl (by rw [hFx]; omega) hyc hy2 hline hpastF
        unfold raw_offset
        rw [hB.1, hB.2.1, hB.2.2, hMopl, hMcl, hFy, hFline, hFopl]
        have hr : (e.cursor_y - 1 - 1 + e.line) * e.octets_per_line +
            e.octets_per_line = (e.cursor_y - 1 + e.line) * e.octets_per_line := by
          ring
        unfold raw_offset at hlast
        omega
      · have hx1e : e.cursor_x = 1 := by omega
        have hy1e : e.cursor_y = 1 := by omega
        have hl1 : 1 ≤ e.line := by
          by_contra hno
          have hl0 : e.line = 0 := by omega
          have hz : raw_offset e = 0 := by
            unfold raw_offset
            rw [hx1e, hy1e, hl0]
            ring
          omega
        have hC := move_left_scrollup F hopl (by rw [hFx]; exact hx1e)
          (by rw [hFy]; exact hy1e) (by rw [hFline]; exact hl1) (by omega) hpastF
        unfold raw_offset
        rw [hC.1, hC.2.1, hMopl, hMcl, hFopl]
        have hLb := hC.2.2.2
        have hL0 := hC.2.2.1
        have hg1 : (1 - 1 + (editor_move_cursor F KEY_LEFT 1).line) *
            e.octets_per_line =
            (editor_move_cursor F KEY_LEFT 1).line * e.octets_per_line := by
          ring
        have hmono := mul_le_mul_of_nonneg_right
          (show (editor_move_cursor F KEY_LEFT 1).line + 1 ≤ e.line by omega)
          (by omega : (0:Int) ≤ e.octets_per_line)
        have hg2 : ((editor_move_cursor F KEY_LEFT 1).line + 1) * e.octets_per_line =
            (editor_move_cursor F KEY_LEFT 1).line * e.octets_per_line +
            e.octets_per_line := by
          ring
        have hcle : e.content_length - 1 = e.line * e.octets_per_line := by
          have hre : raw_offset e = e.line * e.octets_per_line := by
            unfold raw_offset
            rw [hx1e, hy1e]
            ring
          omega
        omega

/-- Witness for C5 at a concrete input: deleting the third and last byte
of a three byte buffer with the cursor on it. -/
theorem delete_at_last_offset_witness :
    (editor_delete_char_at_cursor
      (sample_editor [1, 2, 3] 3 1 0 MODE_NORMAL)).content_length = 2 ∧
    (editor_delete_char_at_cursor
      (sample_editor [1, 2, 3] 3 1 0 MODE_NORMAL)).contents = [1, 2] ∧
    (editor_delete_char_at_cursor
      (sample_editor [1, 2, 3] 3 1 0 MODE_NORMAL)).cursor_x = 2 := by
  have h := delete_at_last_offset (sample_editor [1, 2, 3] 3 1 0 MODE_NORMAL)
    (by decide) (by decide) (by decide) (by decide) (by decide) (by decide)
    (by decide) (by decide)
  refine ⟨?_, ?_, ?_⟩
  · rw [h.1]
    decide
  · rw [h.2.1]
    decide
  · rw [(h.2.2.1 (by decide)).1]
    decide
